import Mathlib

/-!
GamePhysics: rigid-body cube, scene server and client smoothing.

A shallow embedding of `Zen of Networked Physics/Source/Cube.h`, `Server.h`, `Move.h`, the
latency switch of `Options.h`, the fixed-timestep loop of `PhysicsIn3D/Physics3D.cpp`, and
the one-dimensional RK4 integrator of `IntegrationBasics/Integration.cpp`.

Conventions of the embedding.

* The C++ `float` is an arbitrary linearly ordered field `K` with exact arithmetic
  (`ℚ` when a definition is evaluated, `ℝ` for the intended reading).  Rounding, NaN and
  infinities are outside the model, so the `assert(x==x)` NaN guards of the source are
  always satisfied and are not represented.  The one exception is the loop of
  `Physics3D.cpp`: the number of its iterations depends on the rounding of the
  accumulator, so its `float` variables are modelled with IEEE rounding to nearest.
* `unsigned int` simulation time is a `Nat`.  The only arithmetic on it is the `+1` of one
  scene step, taken under the loop guard `time < t`, so it never passes the largest
  timestamp involved and no wrap-around can occur.
* `Vector.h`, `Quaternion.h`, `Matrix.h`, `Mathematics.h` and `Scene.h` are not part of the
  available sources.  Component-wise vector and quaternion arithmetic is written out; the
  remaining library operations are the fields of `Mathematics`, a parameter of every
  definition that uses them.
-/

namespace GamePhysics

variable {K : Type} [LinearOrderedField K] {Mat : Type}

/-! ## Mathematics library: vectors, quaternions, planes -/

/-- Three-component vector (`Mathematics::Vector`). -/
@[ext]
structure Vector (K : Type) where
  x : K
  y : K
  z : K
deriving DecidableEq

namespace Vector

instance : Add (Vector K) := ⟨fun a b => ⟨a.x + b.x, a.y + b.y, a.z + b.z⟩⟩
instance : Sub (Vector K) := ⟨fun a b => ⟨a.x - b.x, a.y - b.y, a.z - b.z⟩⟩
instance : Neg (Vector K) := ⟨fun a => ⟨-a.x, -a.y, -a.z⟩⟩
instance : HMul (Vector K) K (Vector K) := ⟨fun a k => ⟨a.x * k, a.y * k, a.z * k⟩⟩
instance : HMul K (Vector K) (Vector K) := ⟨fun k a => ⟨k * a.x, k * a.y, k * a.z⟩⟩

/-- The zero vector, as left by `Vector::zero()`. -/
def zero : Vector K := ⟨0, 0, 0⟩

/-- Dot product `a.dot(b)`. -/
def dot (a b : Vector K) : K := a.x * b.x + a.y * b.y + a.z * b.z

/-- Cross product `a.cross(b)`. -/
def cross (a b : Vector K) : Vector K :=
  ⟨a.y * b.z - a.z * b.y, a.z * b.x - a.x * b.z, a.x * b.y - a.y * b.x⟩

/-- Squared length `a.lengthSquared()`. -/
def lengthSquared (a : Vector K) : K := a.x * a.x + a.y * a.y + a.z * a.z

end Vector

/-- Quaternion `w + xi + yj + zk` (`Mathematics::Quaternion`). -/
@[ext]
structure Quaternion (K : Type) where
  w : K
  x : K
  y : K
  z : K
deriving DecidableEq

namespace Quaternion

instance : Add (Quaternion K) := ⟨fun a b => ⟨a.w + b.w, a.x + b.x, a.y + b.y, a.z + b.z⟩⟩
instance : Sub (Quaternion K) := ⟨fun a b => ⟨a.w - b.w, a.x - b.x, a.y - b.y, a.z - b.z⟩⟩
instance : HMul (Quaternion K) K (Quaternion K) :=
  ⟨fun a k => ⟨a.w * k, a.x * k, a.y * k, a.z * k⟩⟩
instance : HMul K (Quaternion K) (Quaternion K) :=
  ⟨fun k a => ⟨k * a.w, k * a.x, k * a.y, k * a.z⟩⟩

/-- Hamilton product of two quaternions. -/
instance : Mul (Quaternion K) := ⟨fun a b =>
  ⟨a.w * b.w - a.x * b.x - a.y * b.y - a.z * b.z,
   a.w * b.x + a.x * b.w + a.y * b.z - a.z * b.y,
   a.w * b.y - a.x * b.z + a.y * b.w + a.z * b.x,
   a.w * b.z + a.x * b.y - a.y * b.x + a.z * b.w⟩⟩

/-- The identity rotation, as set by `Quaternion::identity()`. -/
def identity : Quaternion K := ⟨1, 0, 0, 0⟩

/-- Sum of the squares of the four components. -/
def lengthSquared (q : Quaternion K) : K := q.w * q.w + q.x * q.x + q.y * q.y + q.z * q.z

end Quaternion

/-- Collision plane `normal · p = constant` (`Mathematics::Plane`). -/
structure Plane (K : Type) where
  normal : Vector K
  constant : K

/-- Operations of the Mathematics library whose code is not available, taken as
parameters: the scalar square root, the equality tests of `Vector` and `Quaternion`,
`Quaternion::norm`, `slerp`, and the `Matrix` operations used by `Cube`
(`Matrix::translate`, `Quaternion::matrix`, matrix product, `Matrix::inverse`, and
matrix times vector). -/
structure Mathematics (K : Type) (Mat : Type) where
  sqrt : K → K
  vectorEq : Vector K → Vector K → Bool
  quaternionEq : Quaternion K → Quaternion K → Bool
  norm : Quaternion K → K
  slerp : Quaternion K → Quaternion K → K → Quaternion K
  translate : Vector K → Mat
  matrix : Quaternion K → Mat
  mul : Mat → Mat → Mat
  inverse : Mat → Mat
  transform : Mat → Vector K → Vector K

/-- Length of a quaternion: the square root of the sum of squares. -/
def Quaternion.length (M : Mathematics K Mat) (q : Quaternion K) : K :=
  M.sqrt q.lengthSquared

/-- Modelled from the spec: `Quaternion::normalize` (Quaternion.h is not among the
sources).  "Orientation is renormalized to unit length on every recompute": every
component is divided by the quaternion's length.  The zero quaternion, which has no unit
multiple, is outside every statement made about this definition. -/
def Quaternion.normalize (M : Mathematics K Mat) (q : Quaternion K) : Quaternion K :=
  let length := q.length M
  ⟨q.w / length, q.x / length, q.y / length, q.z / length⟩

/-! ## Cube.h -/

/-- Input data (`Cube::Input`). -/
structure Cube.Input where
  left : Bool
  right : Bool
  forward : Bool
  back : Bool
  jump : Bool
deriving DecidableEq

/-- Physics state (`Cube::State`): primary, secondary and constant quantities. -/
structure Cube.State (K : Type) (Mat : Type) where
  position : Vector K
  momentum : Vector K
  orientation : Quaternion K
  angularMomentum : Vector K
  velocity : Vector K
  spin : Quaternion K
  angularVelocity : Vector K
  bodyToWorld : Mat
  worldToBody : Mat
  size : K
  mass : K
  inverseMass : K
  inertiaTensor : K
  inverseInertiaTensor : K

namespace Cube.State

/-- Recalculate secondary state values from primary values (`State::recalculate`). -/
def recalculate (M : Mathematics K Mat) (s : State K Mat) : State K Mat :=
  let velocity := s.momentum * s.inverseMass
  let angularVelocity := s.angularMomentum * s.inverseInertiaTensor
  let orientation := s.orientation.normalize M
  let spin := (1 / 2 : K)
    * (⟨0, angularVelocity.x, angularVelocity.y, angularVelocity.z⟩ : Quaternion K)
    * orientation
  let translation := M.translate s.position
  let bodyToWorld := M.mul translation (M.matrix orientation)
  let worldToBody := M.inverse bodyToWorld
  { s with
    velocity := velocity
    angularVelocity := angularVelocity
    orientation := orientation
    spin := spin
    bodyToWorld := bodyToWorld
    worldToBody := worldToBody }

/-- Equality operator, primary quantities only (`State::operator==`). -/
def eq (M : Mathematics K Mat) (a other : State K Mat) : Bool :=
  M.vectorEq a.position other.position && M.quaternionEq a.orientation other.orientation &&
    M.vectorEq a.momentum other.momentum && M.vectorEq a.angularMomentum other.angularMomentum

/-- Inequality operator (`State::operator!=`). -/
def ne (M : Mathematics K Mat) (a other : State K Mat) : Bool :=
  !(eq M a other)

/-- Compare with another physics state for "significant" differences
(`State::compare`). -/
def compare (M : Mathematics K Mat) (a other : State K Mat) : Bool :=
  let threshold : K := (1 / 10) * (1 / 10)
  decide ((other.position - a.position).lengthSquared > threshold) ||
    decide (M.norm (other.orientation - a.orientation) > threshold)

end Cube.State

/-- The cube: colour, previous and current physics state (`class Cube`). -/
structure Cube (K : Type) (Mat : Type) where
  r : K
  g : K
  b : K
  a : K
  previous : Cube.State K Mat
  current : Cube.State K Mat

/-- Derivative values for primary state (`Cube::Derivative`). -/
structure Cube.Derivative (K : Type) where
  velocity : Vector K
  force : Vector K
  spin : Quaternion K
  torque : Vector K

namespace Cube

/-- Smooth physics state towards target (`Cube::smooth`). -/
def smooth (M : Mathematics K Mat) (c : Cube K Mat) (target : State K Mat) (tightness : K) :
    Cube K Mat :=
  let previous := c.current
  let current := target
  let current := { current with
    position := previous.position + (target.position - previous.position) * tightness }
  let current := { current with
    orientation := M.slerp previous.orientation target.orientation tightness }
  { c with previous := previous, current := current.recalculate M }

/-- Replace current and previous state (`Cube::snap`). -/
def snap (c : Cube K Mat) (state : State K Mat) : Cube K Mat :=
  { c with current := state, previous := state }

/-- Current physics state (`Cube::state`). -/
def state (c : Cube K Mat) : State K Mat := c.current

/-- Interpolate between two physics states (`Cube::interpolate`). -/
def interpolate (M : Mathematics K Mat) (a b : State K Mat) (alpha : K) : State K Mat :=
  let state := b
  let state := { state with position := a.position * (1 - alpha) + b.position * alpha }
  let state := { state with momentum := a.momentum * (1 - alpha) + b.momentum * alpha }
  let state := { state with orientation := M.slerp a.orientation b.orientation alpha }
  let state := { state with
    angularMomentum := a.angularMomentum * (1 - alpha) + b.angularMomentum * alpha }
  state.recalculate M

/-- Calculate gravity force (`Cube::gravity`); the argument is the force accumulator. -/
def gravity (force : Vector K) : Vector K :=
  { force with y := force.y - 98 / 10 }

/-- Calculate a simple linear and angular damping force (`Cube::damping`); the result is
the pair of the force and torque accumulators. -/
def damping (state : State K Mat) (force torque : Vector K) : Vector K × Vector K :=
  let linear : K := 1 / 1000
  let angular : K := 1 / 1000
  (force - linear * state.velocity, torque - angular * state.angularVelocity)

/-- Calculate collision response force and torque for a point against a plane
(`Cube::collisionForPoint`); the result is the pair of the force and torque
accumulators. -/
def collisionForPoint (state : State K Mat) (force torque : Vector K) (point : Vector K)
    (plane : Plane K) : Vector K × Vector K :=
  let c : K := 10
  let k : K := 100
  let b : K := 5
  let f : K := 3
  let penetration := plane.constant - point.dot plane.normal
  if penetration > 0 then
    let velocity := state.angularVelocity.cross (point - state.position) + state.velocity
    let relativeSpeed := - plane.normal.dot velocity
    let (force, torque) :=
      if relativeSpeed > 0 then
        let collisionForce := plane.normal * (relativeSpeed * c)
        (force + collisionForce, torque + (point - state.position).cross collisionForce)
      else (force, torque)
    let tangentialVelocity := velocity + (plane.normal * relativeSpeed)
    let frictionForce := - tangentialVelocity * f
    let force := force + frictionForce
    let torque := torque + (point - state.position).cross frictionForce
    let penaltyForce := plane.normal * (penetration * k)
    let force := force + penaltyForce
    let torque := torque + (point - state.position).cross penaltyForce
    let dampingForce := plane.normal * (relativeSpeed * penetration * b)
    let force := force + dampingForce
    let torque := torque + (point - state.position).cross dampingForce
    (force, torque)
  else (force, torque)

/-- The local `penetration` of `collisionForPoint`:
`plane.constant - point.dot(plane.normal)`. -/
def penetration (point : Vector K) (plane : Plane K) : K :=
  plane.constant - point.dot plane.normal

/-- The local `velocity` of `collisionForPoint`, the velocity of the body at the point:
`state.angularVelocity.cross(point-state.position) + state.velocity`. -/
def pointVelocity (state : State K Mat) (point : Vector K) : Vector K :=
  state.angularVelocity.cross (point - state.position) + state.velocity

/-- The local `relativeSpeed` of `collisionForPoint`, the closing speed along the normal:
`- plane.normal.dot(velocity)`. -/
def relativeSpeed (state : State K Mat) (point : Vector K) (plane : Plane K) : K :=
  - plane.normal.dot (pointVelocity state point)

/-- The local `collisionForce` of `collisionForPoint`, the penalty-braking force:
`plane.normal * (relativeSpeed * c)` with `c = 10`. -/
def collisionForce (state : State K Mat) (point : Vector K) (plane : Plane K) : Vector K :=
  plane.normal * (relativeSpeed state point plane * 10)

/-- The local `frictionForce` of `collisionForPoint`: `- tangentialVelocity * f` with
`tangentialVelocity = velocity + (plane.normal * relativeSpeed)` and `f = 3`. -/
def frictionForce (state : State K Mat) (point : Vector K) (plane : Plane K) : Vector K :=
  -(pointVelocity state point + plane.normal * relativeSpeed state point plane) * (3 : K)

/-- The local `penaltyForce` of `collisionForPoint`: `plane.normal * (penetration * k)`
with `k = 100`. -/
def penaltyForce (point : Vector K) (plane : Plane K) : Vector K :=
  plane.normal * (penetration point plane * 100)

/-- The local `dampingForce` of `collisionForPoint`:
`plane.normal * (relativeSpeed * penetration * b)` with `b = 5`. -/
def dampingForce (state : State K Mat) (point : Vector K) (plane : Plane K) : Vector K :=
  plane.normal * (relativeSpeed state point plane * penetration point plane * 5)

/-- World-space position of the cube corner with body-space signs `(sx, sy, sz)`:
`state.bodyToWorld * (Vector(sx,sy,sz) * state.size * 0.5)`. -/
def corner (M : Mathematics K Mat) (state : State K Mat) (sx sy sz : K) : Vector K :=
  M.transform state.bodyToWorld ((⟨sx, sy, sz⟩ : Vector K) * state.size * (1 / 2 : K))

/-- Calculate collision response force and torque (`Cube::collision`): each of the eight
corners against each plane, in the order of the source. -/
def collision (M : Mathematics K Mat) (planes : List (Plane K)) (state : State K Mat)
    (force torque : Vector K) : Vector K × Vector K :=
  let a := corner M state (-1) (-1) (-1)
  let b := corner M state 1 (-1) (-1)
  let c := corner M state 1 1 (-1)
  let d := corner M state (-1) 1 (-1)
  let e := corner M state (-1) (-1) 1
  let f := corner M state 1 (-1) 1
  let g := corner M state 1 1 1
  let h := corner M state (-1) 1 1
  planes.foldl (fun (ft : Vector K × Vector K) plane =>
    let ft := collisionForPoint state ft.1 ft.2 a plane
    let ft := collisionForPoint state ft.1 ft.2 b plane
    let ft := collisionForPoint state ft.1 ft.2 c plane
    let ft := collisionForPoint state ft.1 ft.2 d plane
    let ft := collisionForPoint state ft.1 ft.2 e plane
    let ft := collisionForPoint state ft.1 ft.2 f plane
    let ft := collisionForPoint state ft.1 ft.2 g plane
    collisionForPoint state ft.1 ft.2 h plane) (force, torque)

/-- Control forces (`Cube::control`); the result is the pair of the force and torque
accumulators. -/
def control (M : Mathematics K Mat) (input : Input) (state : State K Mat)
    (force torque : Vector K) : Vector K × Vector K :=
  let f : K := 50
  let force := if input.left then { force with x := force.x - f } else force
  let force := if input.right then { force with x := force.x + f } else force
  let force := if input.forward then { force with z := force.z - f } else force
  let force := if input.back then { force with z := force.z + f } else force
  if input.jump = true ∧ state.velocity.y ≥ -(1 / 10) then
    let j : K := 20
    let k : K := 5
    let difference := j - state.velocity.y
    let a := corner M state (-1) (-1) (-1)
    let b := corner M state 1 (-1) (-1)
    let c := corner M state 1 1 (-1)
    let d := corner M state (-1) 1 (-1)
    let e := corner M state (-1) (-1) 1
    let f := corner M state 1 (-1) 1
    let g := corner M state 1 1 1
    let h := corner M state (-1) 1 1
    let lowest := a.y
    let lowest := if b.y < lowest then b.y else lowest
    let lowest := if c.y < lowest then c.y else lowest
    let lowest := if d.y < lowest then d.y else lowest
    let lowest := if e.y < lowest then e.y else lowest
    let lowest := if f.y < lowest then f.y else lowest
    let lowest := if g.y < lowest then g.y else lowest
    let lowest := if h.y < lowest then h.y else lowest
    if difference > 0 ∧ lowest < 5 / 100 then
      ({ force with y := force.y + difference * k }, torque)
    else (force, torque)
  else (force, torque)

/-- Calculate force and torque for a physics state (`Cube::forces`): gravity, damping,
collision and control accumulated from zero, in that order. -/
def forces (M : Mathematics K Mat) (input : Input) (planes : List (Plane K))
    (state : State K Mat) : Vector K × Vector K :=
  let force : Vector K := Vector.zero
  let torque : Vector K := Vector.zero
  let force := gravity force
  let (force, torque) := damping state force torque
  let (force, torque) := collision M planes state force torque
  control M input state force torque

/-- Evaluate all derivative values for the physics state (`Cube::evaluate`, the overload
without a time step). -/
def evaluate (M : Mathematics K Mat) (input : Input) (planes : List (Plane K))
    (state : State K Mat) : Derivative K :=
  let ft := forces M input planes state
  { velocity := state.velocity, spin := state.spin, force := ft.1, torque := ft.2 }

/-- Evaluate derivative values for the physics state advanced by `dt` along the given
derivative (`Cube::evaluate`, the overload with `dt` and `derivative`). -/
def evaluateAt (M : Mathematics K Mat) (input : Input) (planes : List (Plane K))
    (state : State K Mat) (dt : K) (derivative : Derivative K) : Derivative K :=
  let state := { state with position := state.position + derivative.velocity * dt }
  let state := { state with momentum := state.momentum + derivative.force * dt }
  let state := { state with orientation := state.orientation + derivative.spin * dt }
  let state := { state with
    angularMomentum := state.angularMomentum + derivative.torque * dt }
  let state := state.recalculate M
  let ft := forces M input planes state
  { velocity := state.velocity, spin := state.spin, force := ft.1, torque := ft.2 }

/-- The primary-state update of `Cube::integrate`: the four derivative evaluations and
the weighted sums added to position, momentum, orientation and angular momentum (all of
`integrate` but its closing `state.recalculate()`). -/
def integratePrimary (M : Mathematics K Mat) (input : Input) (planes : List (Plane K))
    (state : State K Mat) (dt : K) : State K Mat :=
  let a := evaluate M input planes state
  let b := evaluateAt M input planes state (dt * (1 / 2)) a
  let c := evaluateAt M input planes state (dt * (1 / 2)) b
  let d := evaluateAt M input planes state dt c
  let state := { state with position := state.position
    + (1 / 6 : K) * dt * (a.velocity + (2 : K) * (b.velocity + c.velocity) + d.velocity) }
  let state := { state with momentum := state.momentum
    + (1 / 6 : K) * dt * (a.force + (2 : K) * (b.force + c.force) + d.force) }
  let state := { state with orientation := state.orientation
    + (1 / 6 : K) * dt * (a.spin + (2 : K) * (b.spin + c.spin) + d.spin) }
  let state := { state with angularMomentum := state.angularMomentum
    + (1 / 6 : K) * dt * (a.torque + (2 : K) * (b.torque + c.torque) + d.torque) }
  state

/-- Integrate physics state forward by `dt` seconds with RK4 (`Cube::integrate`). -/
def integrate (M : Mathematics K Mat) (input : Input) (planes : List (Plane K))
    (state : State K Mat) (dt : K) : State K Mat :=
  (integratePrimary M input planes state dt).recalculate M

/-- Update physics state (`Cube::update`). -/
def update (M : Mathematics K Mat) (c : Cube K Mat) (input : Input)
    (planes : List (Plane K)) (dt : K) : Cube K Mat :=
  let previous := c.current
  { c with previous := previous, current := integrate M input planes c.current dt }

/-- The state after `n` successive `integrate` steps with the same input, planes and
step size. -/
def integrateN (M : Mathematics K Mat) (input : Input) (planes : List (Plane K)) (dt : K) :
    Nat → State K Mat → State K Mat
  | 0, state => state
  | n + 1, state => integrate M input planes (integrateN M input planes dt n state) dt

end Cube

/-! ## Move.h, Scene and Server.h -/

/-- Move data (`struct Move`): integer time, cube physics state, cube input. -/
structure Move (K : Type) (Mat : Type) where
  time : Nat
  state : Cube.State K Mat
  input : Cube.Input

/-- The members of `Scene` that `Server` uses: the cube, the integer scene time, the
active input and the collision planes. -/
structure Scene (K : Type) (Mat : Type) where
  cube : Cube K Mat
  time : Nat
  input : Cube.Input
  planes : List (Plane K)

/-- Modelled from the spec: `Scene::update` (Scene.h is not among the sources).  "Each
`update(t)` call advances exactly one fixed timestep `dt`, stores current into previous
before integrating, then integrates": the cube is updated with the active input and the
planes over the fixed step `dt`, and the integer scene time goes up by one.  The fixed
step `dt` is a constant of the missing file and is a parameter here. -/
def Scene.update (M : Mathematics K Mat) (dt : K) (s : Scene K Mat) (_t : Nat) :
    Scene K Mat :=
  { s with cube := s.cube.update M s.input s.planes dt, time := s.time + 1 }

/-- The authoritative scene on the server (`struct Server : public Scene`). -/
structure Server (K : Type) (Mat : Type) extends Scene K Mat where
  useImportantMoves : Bool

namespace Server

/-- One call `Scene::update(time)` made on a server. -/
def sceneUpdate (M : Mathematics K Mat) (dt : K) (s : Server K Mat) : Server K Mat :=
  { s with toScene := s.toScene.update M dt s.time }

/-- The loop `while (time<t) Scene::update(time);` of `Server::update`. -/
def advance (M : Mathematics K Mat) (dt : K) (s : Server K Mat) (t : Nat) : Server K Mat :=
  if s.time < t then advance M dt (s.sceneUpdate M dt) t else s
termination_by t - s.time
decreasing_by
  simp only [sceneUpdate, Scene.update]
  omega

/-- The body of the loop over the important moves in `Server::update`:
`while (time<move.time) Scene::update(time); this->input = move.input;`. -/
def applyMove (M : Mathematics K Mat) (dt : K) (s : Server K Mat) (move : Move K Mat) :
    Server K Mat :=
  let s := advance M dt s move.time
  { s with input := move.input }

/-- Update server physics with input (`Server::update`). -/
def update (M : Mathematics K Mat) (dt : K) (s : Server K Mat) (t : Nat)
    (input : Cube.Input) (importantMoves : List (Move K Mat)) : Server K Mat :=
  let s := if s.useImportantMoves then importantMoves.foldl (applyMove M dt) s else s
  let s := advance M dt s t
  { s with input := input }

end Server

/-! ## Options.h: the latency setting -/

namespace Options

/-- The enumerators of `enum Latency`, stored in the `int latency`. -/
def NoLatency : Int := 0

/-- The enumerator `FiftyMillisecondsLatency`. -/
def FiftyMillisecondsLatency : Int := 1

/-- The enumerator `TwoHundredMillisecondsLatency`. -/
def TwoHundredMillisecondsLatency : Int := 2

/-- The enumerator `TwoSecondsLatency`. -/
def TwoSecondsLatency : Int := 3

/-- The `switch (latency)` of `Options::update`: the value of `connection.latency`
(seconds) after it, from the setting and the value before.  A setting outside the four
cases leaves the value as it is. -/
def updateLatency (latency : Int) (connectionLatency : K) : K :=
  if latency = NoLatency then 0
  else if latency = FiftyMillisecondsLatency then 50 / 1000 * (1 / 2)
  else if latency = TwoHundredMillisecondsLatency then 200 / 1000 * (1 / 2)
  else if latency = TwoSecondsLatency then 1
  else connectionLatency

/-- The C++ conversion `(int) x`: truncation towards zero. -/
def toInt [FloorRing K] (x : K) : Int :=
  if 0 ≤ x then Int.floor x else Int.ceil x

/-- The local `milliseconds` of `Options::update`:
`(int) (connection.latency * 2.0f * 1000.0f)`. -/
def milliseconds [FloorRing K] (connectionLatency : K) : Int :=
  toInt (connectionLatency * 2 * 1000)

end Options

/-! ## Physics3D.cpp: the fixed-timestep loop -/

namespace Physics3D

/-- The value `+inf` of a `float`.  The non-negative `float` (IEEE binary32) values of
the loop are counted in units of `2^-149`, the least positive `float`: the natural number
`n` stands for `n * 2^-149`, the finite values are below `2^128 * 2^149`, and that number
stands for `+inf`.  Negative values and NaN do not arise in the loop: `dt` is positive, the
accumulator is reduced only while it is at least `dt`, and `t` starts at 0 and only
grows. -/
def infinity : Nat := 2 ^ 128 * 2 ^ 149

/-- Doubles the spacing `q` while `m` has more than 24 significant bits at that spacing. -/
def quantumFrom : Nat → Nat → Nat → Nat
  | 0, q, _ => q
  | fuel + 1, q, m => if 2 ^ 24 ≤ m / q then quantumFrom fuel (2 * q) m else q

/-- The spacing of the `float` values around the exact value `m`: one unit below `2^24`
units (subnormal values and the first binade), doubling with every binade above.  The 256
doublings cover every exponent of a `float`. -/
def quantum (m : Nat) : Nat := quantumFrom 256 1 m

/-- Rounding of an exact non-negative result to `float`: to the nearest multiple of the
spacing, a tie to the even multiple, and `+inf` from `2^128` on (IEEE round to nearest,
ties to even). -/
def round32 (m : Nat) : Nat :=
  let q := quantum m
  let k := m / q
  let r := m % q
  let k := if 2 * r < q then k else if q < 2 * r then k + 1 else if k % 2 = 0 then k else k + 1
  if infinity ≤ k * q then infinity else k * q

/-- The variables of `main` that the inner loop works on: the cube, the accumulator and
the simulation time `t`, both `float`.  The cube class of this program is not among the
sources; its type is a parameter. -/
structure Loop (C : Type) where
  cube : C
  accumulator : Nat
  t : Nat
deriving DecidableEq

/-- The body of the inner loop: `cube.update(t, dt); accumulator -= dt; t += dt;`, with
`Cube::update` of this program a parameter.  The difference and the sum are rounded to
`float`; the body runs only while `accumulator >= dt`, so the difference is not negative. -/
def body {C : Type} (update : C → Nat → Nat → C) (dt : Nat) (s : Loop C) : Loop C :=
  { cube := update s.cube s.t dt
    accumulator := round32 (s.accumulator - dt)
    t := round32 (s.t + dt) }

/-- The inner loop `while (accumulator>=dt) { ... }`, run with a bound on the number of
iterations: `none` when the bound is used up with the loop condition still true. -/
def innerLoop {C : Type} (update : C → Nat → Nat → C) (dt : Nat) :
    Nat → Loop C → Option (Loop C)
  | 0, s => if s.accumulator ≥ dt then none else some s
  | fuel + 1, s =>
    if s.accumulator ≥ dt then innerLoop update dt fuel (body update dt s) else some s

/-- What `n` whole steps are to leave, field by field: the cube after the calls
`cube.update(t_i, dt)` for `i = 0, ..., n - 1`, each with the full step `dt`, at the
times `t_i` reached by `i` rounded additions of `dt`; the accumulator after `n` rounded
subtractions of `dt`; and `t` after `n` rounded additions of `dt`. -/
def afterSteps {C : Type} (update : C → Nat → Nat → C) (dt : Nat) (n : Nat) (s : Loop C) :
    Loop C :=
  { cube := (List.range n).foldl
      (fun c i => update c ((fun t => round32 (t + dt))^[i] s.t) dt) s.cube
    accumulator := (fun a => round32 (a - dt))^[n] s.accumulator
    t := (fun t => round32 (t + dt))^[n] s.t }

/-- The `float` 0.01f (bits `0x3c23d70a`), the `dt` of `main`: `10737418 * 2^-30`. -/
def hundredth : Nat := 10737418 * 2 ^ 119

/-- A stand-in for `Cube::update`: the cube is the list of the times of the calls made on
it, the latest first. -/
def recordUpdate (c : List Nat) (t : Nat) (_dt : Nat) : List Nat := t :: c

/-- The loop variables with the accumulator at the `float` of bits `0x3d4ccccc`
(`13421772 * 2^-28`, just under 0.05), a fresh recording cube and `t = 0`. -/
def Loop.sample : Loop (List Nat) :=
  { cube := [], accumulator := 13421772 * 2 ^ 121, t := 0 }

end Physics3D

/-! ## Integration.cpp: the one-dimensional RK4 integrator -/

namespace Integration

/-- Position and velocity (`struct State` of Integration.cpp). -/
@[ext]
structure State (K : Type) where
  x : K
  v : K
deriving DecidableEq

/-- Derivatives of position and velocity (`struct Derivative` of Integration.cpp). -/
structure Derivative (K : Type) where
  dx : K
  dv : K

/-- The damped spring `acceleration(state, t)`: `- k*state.x - b*state.v` with `k = 10`
and `b = 1`; the time argument is not used. -/
def acceleration (state : State K) (_t : K) : K :=
  let k : K := 10
  let b : K := 1;
  - k * state.x - b * state.v

/-- Derivative at the initial state (`evaluate(initial, t)`). -/
def evaluate (initial : State K) (t : K) : Derivative K :=
  { dx := initial.v, dv := acceleration initial t }

/-- Derivative at the state advanced by `dt` along `d` (`evaluate(initial, t, dt, d)`). -/
def evaluateAt (initial : State K) (t dt : K) (d : Derivative K) : Derivative K :=
  let state : State K := { x := initial.x + d.dx * dt, v := initial.v + d.dv * dt }
  { dx := state.v, dv := acceleration state (t + dt) }

/-- One RK4 step (`integrate(state, t, dt)`); the result is the new state. -/
def integrate (state : State K) (t dt : K) : State K :=
  let a := evaluate state t
  let b := evaluateAt state t (dt * (1 / 2)) a
  let c := evaluateAt state t (dt * (1 / 2)) b
  let d := evaluateAt state t dt c
  let dxdt := 1 / 6 * (a.dx + 2 * (b.dx + c.dx) + d.dx)
  let dvdt := 1 / 6 * (a.dv + 2 * (b.dv + c.dv) + d.dv)
  { x := state.x + dxdt * dt, v := state.v + dvdt * dt }

/-- The matrix `A = [[0, 1], [-10, -1]]` of the linear system `x' = v`, `v' = -10 x - v`,
as the claim about the Taylor map writes it. -/
def systemMatrix : Matrix (Fin 2) (Fin 2) K :=
  !![0, 1; -10, -1]

/-- The 4th-order Taylor map `I + hA + (hA)^2/2 + (hA)^3/6 + (hA)^4/24`, as the claim
about the Taylor map writes it. -/
def taylorMap (h : K) : Matrix (Fin 2) (Fin 2) K :=
  1 + h • systemMatrix + (1 / 2 : K) • (h • systemMatrix) ^ 2
    + (1 / 6 : K) • (h • systemMatrix) ^ 3 + (1 / 24 : K) • (h • systemMatrix) ^ 4

/-- The Taylor map applied to a state, read as the column vector `(x, v)`. -/
def taylorStep (h : K) (state : State K) : State K :=
  { x := (taylorMap h).mulVec ![state.x, state.v] 0,
    v := (taylorMap h).mulVec ![state.x, state.v] 1 }

/-- The start state of `main`: `x = 100`, `v = 0`. -/
def State.sample : State ℚ := { x := 100, v := 0 }

end Integration

/-! ## Construction of the cube, and a rational instance of the library interface

The statements below hold for every field `K` and every instance of `Mathematics`.  To
evaluate the definitions on concrete inputs, the interface is instantiated over `ℚ` with
affine maps for matrices. -/

/-- Default constructor `Cube()`: unit size and mass, dropped from height 40, at rest,
identity orientation.  The secondary fields, which C++ leaves uninitialised until
`recalculate()`, start from zero values that `recalculate` overwrites. -/
def Cube.init (M : Mathematics K Mat) : Cube K Mat :=
  let size : K := 1
  let mass : K := 1
  let inertiaTensor : K := mass * size * size * 1 / 6
  let current : Cube.State K Mat :=
    { position := ⟨0, 40, 0⟩
      momentum := ⟨0, 0, 0⟩
      orientation := Quaternion.identity
      angularMomentum := ⟨0, 0, 0⟩
      velocity := Vector.zero
      spin := ⟨0, 0, 0, 0⟩
      angularVelocity := Vector.zero
      bodyToWorld := M.translate Vector.zero
      worldToBody := M.translate Vector.zero
      size := size
      mass := mass
      inverseMass := 1 / mass
      inertiaTensor := inertiaTensor
      inverseInertiaTensor := 1 / inertiaTensor }
  let current := current.recalculate M
  { r := 1, g := 1, b := 1, a := 1, previous := current, current := current }

/-- Affine map of 3-space, rows of the linear part and the translation: the matrices of
the rational instance. -/
structure Affine (K : Type) where
  r0 : Vector K
  r1 : Vector K
  r2 : Vector K
  t : Vector K

namespace Affine

/-- Apply an affine map to a point. -/
def apply (m : Affine K) (v : Vector K) : Vector K :=
  ⟨m.r0.dot v + m.t.x, m.r1.dot v + m.t.y, m.r2.dot v + m.t.z⟩

/-- Composition `a * b` (apply `b` first). -/
def comp (a b : Affine K) : Affine K :=
  let c0 : Vector K := ⟨b.r0.x, b.r1.x, b.r2.x⟩
  let c1 : Vector K := ⟨b.r0.y, b.r1.y, b.r2.y⟩
  let c2 : Vector K := ⟨b.r0.z, b.r1.z, b.r2.z⟩
  { r0 := ⟨a.r0.dot c0, a.r0.dot c1, a.r0.dot c2⟩
    r1 := ⟨a.r1.dot c0, a.r1.dot c1, a.r1.dot c2⟩
    r2 := ⟨a.r2.dot c0, a.r2.dot c1, a.r2.dot c2⟩
    t := a.apply b.t }

/-- Translation by `p`. -/
def translation (p : Vector K) : Affine K :=
  { r0 := ⟨1, 0, 0⟩, r1 := ⟨0, 1, 0⟩, r2 := ⟨0, 0, 1⟩, t := p }

/-- Rotation matrix of a unit quaternion. -/
def rotation (q : Quaternion K) : Affine K :=
  { r0 := ⟨1 - 2 * (q.y * q.y + q.z * q.z), 2 * (q.x * q.y - q.w * q.z),
           2 * (q.x * q.z + q.w * q.y)⟩
    r1 := ⟨2 * (q.x * q.y + q.w * q.z), 1 - 2 * (q.x * q.x + q.z * q.z),
           2 * (q.y * q.z - q.w * q.x)⟩
    r2 := ⟨2 * (q.x * q.z - q.w * q.y), 2 * (q.y * q.z + q.w * q.x),
           1 - 2 * (q.x * q.x + q.y * q.y)⟩
    t := ⟨0, 0, 0⟩ }

/-- Inverse of a rigid motion: transposed linear part, translation mapped back. -/
def rigidInverse (m : Affine K) : Affine K :=
  let c0 : Vector K := ⟨m.r0.x, m.r1.x, m.r2.x⟩
  let c1 : Vector K := ⟨m.r0.y, m.r1.y, m.r2.y⟩
  let c2 : Vector K := ⟨m.r0.z, m.r1.z, m.r2.z⟩
  { r0 := c0, r1 := c1, r2 := c2, t := ⟨-(c0.dot m.t), -(c1.dot m.t), -(c2.dot m.t)⟩ }

end Affine

/-- Rational square root, exact on squares of rationals: integer square roots of the
numerator and of the denominator. -/
def ratSqrt (x : ℚ) : ℚ := (Nat.sqrt x.num.toNat : ℚ) / (Nat.sqrt x.den : ℚ)

/-- The rational instance of the library interface: exact equality tests, the sum of
squares for `norm`, linear interpolation in place of `slerp` (the spherical one needs
trigonometric functions), and affine maps for matrices. -/
def Mathematics.rational : Mathematics ℚ (Affine ℚ) where
  sqrt := ratSqrt
  vectorEq := fun a b => decide (a = b)
  quaternionEq := fun a b => decide (a = b)
  norm := Quaternion.lengthSquared
  slerp := fun a b t => a + (b - a) * t
  translate := Affine.translation
  matrix := Affine.rotation
  mul := Affine.comp
  inverse := Affine.rigidInverse
  transform := Affine.apply

/-- The input with no flag set. -/
def Cube.Input.none : Cube.Input :=
  { left := false, right := false, forward := false, back := false, jump := false }

/-- A server over the rational instance, as `Server()` leaves it (`cube.a = 0.45`), at
scene time 0 with no input, a ground plane `y = 0`, and important moves switched on. -/
def Server.sample : Server ℚ (Affine ℚ) :=
  { cube := { Cube.init Mathematics.rational with a := 45 / 100 }
    time := 0
    input := Cube.Input.none
    planes := [{ normal := ⟨0, 1, 0⟩, constant := 0 }]
    useImportantMoves := true }

/-- The sample server as `Server()` leaves the flag: important moves switched off. -/
def Server.sampleOff : Server ℚ (Affine ℚ) :=
  { Server.sample with useImportantMoves := false }

/-- A move of time 7 carrying the jump input and the state of the sample cube. -/
def Move.sample : Move ℚ (Affine ℚ) :=
  { time := 7, state := Server.sample.cube.current,
    input := { left := false, right := false, forward := false, back := false, jump := true } }

/-- The ground plane `y = 0` with the normal pointing up. -/
def Plane.ground : Plane ℚ :=
  { normal := ⟨0, 1, 0⟩, constant := 0 }

/-- The sample state brought down to the origin and moving down at unit speed: momentum
`(0, -1, 0)` with mass 1, secondary values recalculated. -/
def Cube.State.sampleFalling : Cube.State ℚ (Affine ℚ) :=
  ({ Server.sample.cube.current with
      position := ⟨0, 0, 0⟩, momentum := ⟨0, -1, 0⟩ }).recalculate Mathematics.rational

/-- The corner `(+1,-1,+1)` of the unit cube centred at the origin. -/
def Vector.sampleCorner : Vector ℚ := ⟨1 / 2, -(1 / 2), 1 / 2⟩

/-- The sample server without collision planes. -/
def Server.samplePlaneless : Server ℚ (Affine ℚ) :=
  { Server.sample with planes := [] }

/-- A redundant move: time 0, the `left` input and the state of the sample cube. -/
def Move.sampleStale : Move ℚ (Affine ℚ) :=
  { time := 0, state := Server.sample.cube.current,
    input := { left := true, right := false, forward := false, back := false, jump := false } }

/-- The default cube lowered to height 0.4755, at rest, with identity orientation. -/
def Cube.State.sampleResting : Cube.State ℚ (Affine ℚ) :=
  { Server.sample.cube.current with
    position := ⟨0, 4755 / 10000, 0⟩, orientation := Quaternion.identity }

/-- Two moves in ascending order of time, the later one past the sample target times. -/
def Move.sampleAscending : List (Move ℚ (Affine ℚ)) :=
  [{ time := 2, state := Server.sample.cube.current,
     input := { left := true, right := false, forward := false, back := false,
                jump := false } },
   { time := 9, state := Server.sample.cube.current,
     input := { left := false, right := false, forward := false, back := false,
                jump := true } }]

/-- The input with only the `left` flag set. -/
def Cube.Input.onlyLeft : Cube.Input :=
  { left := true, right := false, forward := false, back := false, jump := false }

/-- The input with only the `jump` flag set. -/
def Cube.Input.onlyJump : Cube.Input :=
  { left := false, right := false, forward := false, back := false, jump := true }

/-! ## Component lemmas for vector and quaternion arithmetic -/

namespace Vector

@[simp] theorem add_x (a b : Vector K) : (a + b).x = a.x + b.x := rfl
@[simp] theorem add_y (a b : Vector K) : (a + b).y = a.y + b.y := rfl
@[simp] theorem add_z (a b : Vector K) : (a + b).z = a.z + b.z := rfl
@[simp] theorem sub_x (a b : Vector K) : (a - b).x = a.x - b.x := rfl
@[simp] theorem sub_y (a b : Vector K) : (a - b).y = a.y - b.y := rfl
@[simp] theorem sub_z (a b : Vector K) : (a - b).z = a.z - b.z := rfl
@[simp] theorem neg_x (a : Vector K) : (-a).x = -a.x := rfl
@[simp] theorem neg_y (a : Vector K) : (-a).y = -a.y := rfl
@[simp] theorem neg_z (a : Vector K) : (-a).z = -a.z := rfl
@[simp] theorem mul_x (a : Vector K) (k : K) : (a * k).x = a.x * k := rfl
@[simp] theorem mul_y (a : Vector K) (k : K) : (a * k).y = a.y * k := rfl
@[simp] theorem mul_z (a : Vector K) (k : K) : (a * k).z = a.z * k := rfl
@[simp] theorem lmul_x (k : K) (a : Vector K) : (k * a).x = k * a.x := rfl
@[simp] theorem lmul_y (k : K) (a : Vector K) : (k * a).y = k * a.y := rfl
@[simp] theorem lmul_z (k : K) (a : Vector K) : (k * a).z = k * a.z := rfl

theorem sub_self_eq (a : Vector K) : a - a = ⟨0, 0, 0⟩ := by
  ext <;> simp

end Vector

namespace Quaternion

@[simp] theorem qadd_w (a b : Quaternion K) : (a + b).w = a.w + b.w := rfl
@[simp] theorem qadd_x (a b : Quaternion K) : (a + b).x = a.x + b.x := rfl
@[simp] theorem qadd_y (a b : Quaternion K) : (a + b).y = a.y + b.y := rfl
@[simp] theorem qadd_z (a b : Quaternion K) : (a + b).z = a.z + b.z := rfl
@[simp] theorem qsub_w (a b : Quaternion K) : (a - b).w = a.w - b.w := rfl
@[simp] theorem qsub_x (a b : Quaternion K) : (a - b).x = a.x - b.x := rfl
@[simp] theorem qsub_y (a b : Quaternion K) : (a - b).y = a.y - b.y := rfl
@[simp] theorem qsub_z (a b : Quaternion K) : (a - b).z = a.z - b.z := rfl

@[simp] theorem qrmul_w (a : Quaternion K) (k : K) : (a * k).w = a.w * k := rfl
@[simp] theorem qrmul_x (a : Quaternion K) (k : K) : (a * k).x = a.x * k := rfl
@[simp] theorem qrmul_y (a : Quaternion K) (k : K) : (a * k).y = a.y * k := rfl
@[simp] theorem qrmul_z (a : Quaternion K) (k : K) : (a * k).z = a.z * k := rfl
@[simp] theorem qlmul_w (k : K) (a : Quaternion K) : (k * a).w = k * a.w := rfl
@[simp] theorem qlmul_x (k : K) (a : Quaternion K) : (k * a).x = k * a.x := rfl
@[simp] theorem qlmul_y (k : K) (a : Quaternion K) : (k * a).y = k * a.y := rfl
@[simp] theorem qlmul_z (k : K) (a : Quaternion K) : (k * a).z = k * a.z := rfl
@[simp] theorem qmul_w (a b : Quaternion K) :
    (a * b).w = a.w * b.w - a.x * b.x - a.y * b.y - a.z * b.z := rfl
@[simp] theorem qmul_x (a b : Quaternion K) :
    (a * b).x = a.w * b.x + a.x * b.w + a.y * b.z - a.z * b.y := rfl
@[simp] theorem qmul_y (a b : Quaternion K) :
    (a * b).y = a.w * b.y - a.x * b.z + a.y * b.w + a.z * b.x := rfl
@[simp] theorem qmul_z (a b : Quaternion K) :
    (a * b).z = a.w * b.z + a.x * b.y - a.y * b.x + a.z * b.w := rfl

theorem qsub_self_eq (a : Quaternion K) : a - a = ⟨0, 0, 0, 0⟩ := by
  ext <;> simp

end Quaternion

/-! ## Server: the stepping loop -/

namespace Server

variable (M : Mathematics K Mat) (dt : K)

@[simp] theorem sceneUpdate_time (s : Server K Mat) :
    (s.sceneUpdate M dt).time = s.time + 1 := rfl

@[simp] theorem sceneUpdate_input (s : Server K Mat) :
    (s.sceneUpdate M dt).input = s.input := rfl

@[simp] theorem sceneUpdate_planes (s : Server K Mat) :
    (s.sceneUpdate M dt).planes = s.planes := rfl

@[simp] theorem sceneUpdate_useImportantMoves (s : Server K Mat) :
    (s.sceneUpdate M dt).useImportantMoves = s.useImportantMoves := rfl

@[simp] theorem sceneUpdate_cube (s : Server K Mat) :
    (s.sceneUpdate M dt).cube = s.cube.update M s.input s.planes dt := rfl

/-- The stepping loop makes exactly `t - time` scene steps (none when `t ≤ time`). -/
theorem advance_eq_iterate (s : Server K Mat) (t : Nat) :
    advance M dt s t = (sceneUpdate M dt)^[t - s.time] s := by
  generalize h : t - s.time = n
  induction n generalizing s with
  | zero =>
    have hlt : ¬ s.time < t := by omega
    rw [advance, if_neg hlt]
    rfl
  | succ n ih =>
    have hlt : s.time < t := by omega
    rw [advance, if_pos hlt, ih (s.sceneUpdate M dt) (by simp; omega)]
    rfl

/-- Fields of a server after `n` scene steps: the cube has been updated `n` times with
the input and planes of the start, the time has gone up by `n`, nothing else changed. -/
theorem iterate_sceneUpdate (n : Nat) (s : Server K Mat) :
    ((sceneUpdate M dt)^[n] s).cube
        = (fun c => Cube.update M c s.input s.planes dt)^[n] s.cube
      ∧ ((sceneUpdate M dt)^[n] s).time = s.time + n
      ∧ ((sceneUpdate M dt)^[n] s).input = s.input
      ∧ ((sceneUpdate M dt)^[n] s).planes = s.planes
      ∧ ((sceneUpdate M dt)^[n] s).useImportantMoves = s.useImportantMoves := by
  induction n with
  | zero => simp
  | succ n ih =>
    obtain ⟨hc, ht, hi, hp, hu⟩ := ih
    simp only [Function.iterate_succ_apply', sceneUpdate_cube, sceneUpdate_time,
      sceneUpdate_input, sceneUpdate_planes, sceneUpdate_useImportantMoves, hc, ht, hi, hp, hu]
    exact ⟨trivial, by omega, trivial, trivial, trivial⟩

@[simp] theorem advance_useImportantMoves (s : Server K Mat) (t : Nat) :
    (advance M dt s t).useImportantMoves = s.useImportantMoves := by
  rw [advance_eq_iterate]
  exact (iterate_sceneUpdate M dt _ s).2.2.2.2

theorem advance_time (s : Server K Mat) (t : Nat) :
    (advance M dt s t).time = max s.time t := by
  rw [advance_eq_iterate, (iterate_sceneUpdate M dt _ s).2.1]
  omega

theorem advance_input (s : Server K Mat) (t : Nat) :
    (advance M dt s t).input = s.input := by
  rw [advance_eq_iterate]
  exact (iterate_sceneUpdate M dt _ s).2.2.1

theorem advance_cube (s : Server K Mat) (t : Nat) :
    (advance M dt s t).cube
      = (fun c => Cube.update M c s.input s.planes dt)^[t - s.time] s.cube := by
  rw [advance_eq_iterate]
  exact (iterate_sceneUpdate M dt _ s).1

/-- With no important moves the call is the stepping loop followed by the assignment of the
input, whatever the flag. -/
theorem update_nil (s : Server K Mat) (t : Nat) (input : Cube.Input) :
    update M dt s t input [] = { advance M dt s t with input := input } := by
  unfold update
  cases s.useImportantMoves <;> rfl

/-- The loop over the important moves does not touch the flag. -/
theorem foldl_useImportantMoves (moves : List (Move K Mat)) (s : Server K Mat) :
    (moves.foldl (applyMove M dt) s).useImportantMoves = s.useImportantMoves := by
  induction moves generalizing s with
  | nil => rfl
  | cons m ms ih =>
    rw [List.foldl_cons, ih]
    exact advance_useImportantMoves M dt s m.time

/-- The flag `useImportantMoves` is not touched by `update`. -/
theorem update_useImportantMoves (s : Server K Mat) (t : Nat) (input : Cube.Input)
    (moves : List (Move K Mat)) :
    (update M dt s t input moves).useImportantMoves = s.useImportantMoves := by
  have h : (update M dt s t input moves).useImportantMoves
      = (advance M dt (if s.useImportantMoves then moves.foldl (applyMove M dt) s else s)
          t).useImportantMoves := rfl
  rw [h, advance_useImportantMoves]
  split
  · exact foldl_useImportantMoves M dt moves s
  · rfl

/-- Claim C1 (important-moves recovery).  With `useImportantMoves` enabled, a server that
processes `update(t1, i1, [])` and then `update(t3, i3, [Move{time=t2, input=i2}])` ends in
exactly the same server state (cube, scene time, active input, planes and flag) as one that
processes `update(t1, i1, [])`, `update(t2, i2, [])`, `update(t3, i3, [])`; this holds for
every starting state, all timestamps (in particular `time0 ≤ t1 ≤ t2 ≤ t3`), all inputs and
whatever state the resent move carries. -/
theorem important_moves_recovery (s : Server K Mat) (h : s.useImportantMoves = true)
    (t1 t2 t3 : Nat) (i1 i2 i3 : Cube.Input) (st : Cube.State K Mat) :
    update M dt (update M dt s t1 i1 []) t3 i3 [{ time := t2, state := st, input := i2 }]
      = update M dt (update M dt (update M dt s t1 i1 []) t2 i2 []) t3 i3 [] := by
  have h1 : (update M dt s t1 i1 []).useImportantMoves = true := by
    rw [update_useImportantMoves, h]
  generalize update M dt s t1 i1 [] = s1 at h1 ⊢
  rw [update_nil, update_nil]
  unfold update
  rw [if_pos h1]
  rfl

/-- Claim C1, at the sample server: the move of time 2 with the jump input is lost and
resent with the update of time 5. -/
theorem important_moves_recovery_witness :
    Server.sample.useImportantMoves = true ∧
    update Mathematics.rational (1 / 100) (update Mathematics.rational (1 / 100)
        Server.sample 1 Cube.Input.onlyLeft []) 5 Cube.Input.none
        [{ time := 2, state := Server.sample.cube.current, input := Cube.Input.onlyJump }]
      = update Mathematics.rational (1 / 100) (update Mathematics.rational (1 / 100)
          (update Mathematics.rational (1 / 100) Server.sample 1 Cube.Input.onlyLeft [])
          2 Cube.Input.onlyJump []) 5 Cube.Input.none [] :=
  ⟨rfl, important_moves_recovery Mathematics.rational (1 / 100) Server.sample rfl 1 2 5
    Cube.Input.onlyLeft Cube.Input.onlyJump Cube.Input.none Server.sample.cube.current⟩

/-- Claim C2 (update without important moves).  With `useImportantMoves` false,
`update(t, input, importantMoves)` gives the same server as with an empty list; the cube is
the result of exactly `t - time0` (truncated subtraction, that is `max(0, t - time0)`)
steps `Cube::update`, each with the input and planes that were active before the call; the
scene time ends at `max(time0, t)`; and the active input is the `input` argument. -/
theorem update_without_important_moves (s : Server K Mat) (h : s.useImportantMoves = false)
    (t : Nat) (input : Cube.Input) (moves : List (Move K Mat)) :
    update M dt s t input moves = update M dt s t input []
      ∧ update M dt s t input moves
          = { ((sceneUpdate M dt)^[t - s.time] s) with input := input }
      ∧ (update M dt s t input moves).cube
          = (fun c => Cube.update M c s.input s.planes dt)^[t - s.time] s.cube
      ∧ (update M dt s t input moves).time = max s.time t
      ∧ (update M dt s t input moves).input = input := by
  have h0 : update M dt s t input moves = { advance M dt s t with input := input } := by
    unfold update
    rw [h]
    rfl
  refine ⟨by rw [h0, update_nil], by rw [h0, advance_eq_iterate], ?_, ?_, ?_⟩
  · rw [h0]
    exact advance_cube M dt s t
  · rw [h0]
    exact advance_time M dt s t
  · rw [h0]

/-- Claim C2, at the sample server with the flag off, target time 3 and one ignored
important move. -/
theorem update_without_important_moves_witness :
    Server.sampleOff.useImportantMoves = false ∧
    (update Mathematics.rational (1 / 100) Server.sampleOff 3 Cube.Input.onlyLeft
        [Move.sample]).time = max Server.sampleOff.time 3 :=
  ⟨rfl, (update_without_important_moves Mathematics.rational (1 / 100) Server.sampleOff rfl 3
    Cube.Input.onlyLeft [Move.sample]).2.2.2.1⟩

end Server

/-! ## Cube: snapping, smoothing and the comparison operators -/

namespace Cube

variable (M : Mathematics K Mat)

/-- Claim C3 (snap).  `snap(target)` replaces both `current` and `previous` with the target
in every field; so `state()` is the target, `state() == target` holds and
`state().compare(target)` is false, for every prior cube and every target.  The library
equality tests are taken to be reflexive and `norm` to vanish at the zero quaternion. -/
theorem snap_replaces_both (c : Cube K Mat) (target : State K Mat)
    (hv : ∀ v, M.vectorEq v v = true) (hq : ∀ q, M.quaternionEq q q = true)
    (hn : M.norm ⟨0, 0, 0, 0⟩ = 0) :
    (c.snap target).current = target ∧ (c.snap target).previous = target
      ∧ (c.snap target).state = target
      ∧ State.eq M (c.snap target).state target = true
      ∧ State.compare M (c.snap target).state target = false := by
  refine ⟨rfl, rfl, rfl, ?_, ?_⟩
  · simp [snap, state, State.eq, hv, hq]
  · simp [snap, state, State.compare, Vector.sub_self_eq, Quaternion.qsub_self_eq, hn,
      Vector.lengthSquared]

/-- Claim C3, over the rational instance: the sample cube snapped to a state moved to the
origin. -/
theorem snap_replaces_both_witness :
    (∀ v, Mathematics.rational.vectorEq v v = true)
      ∧ (∀ q, Mathematics.rational.quaternionEq q q = true)
      ∧ Mathematics.rational.norm ⟨0, 0, 0, 0⟩ = 0
      ∧ State.compare Mathematics.rational
          ((Server.sample.cube.snap Move.sample.state).state) Move.sample.state = false :=
  ⟨fun _ => by simp [Mathematics.rational], fun _ => by simp [Mathematics.rational],
    by simp [Mathematics.rational, Quaternion.lengthSquared],
    (snap_replaces_both Mathematics.rational Server.sample.cube Move.sample.state
      (fun _ => by simp [Mathematics.rational]) (fun _ => by simp [Mathematics.rational])
      (by simp [Mathematics.rational, Quaternion.lengthSquared])).2.2.2.2⟩

/-- Claim C4 (smooth).  After `smooth(target, tightness)`, `previous` is the pre-call
current state, `current.position` is
`previous.position + (target.position - previous.position) * tightness`, and
`current.momentum` and `current.angularMomentum` are the target's values, for every cube,
target and tightness. -/
theorem smooth_blends_position (c : Cube K Mat) (target : State K Mat) (tightness : K) :
    (c.smooth M target tightness).previous = c.current
      ∧ (c.smooth M target tightness).current.position
          = (c.smooth M target tightness).previous.position
            + (target.position - (c.smooth M target tightness).previous.position) * tightness
      ∧ (c.smooth M target tightness).current.momentum = target.momentum
      ∧ (c.smooth M target tightness).current.angularMomentum = target.angularMomentum :=
  ⟨rfl, rfl, rfl, rfl⟩

/-- Claim C7 (equality over primary quantities).  `a == b` holds exactly when the library
equality tests hold for position, orientation, momentum and angular momentum; the result
is the same for any states `x`, `y` carrying the primary quantities of `a` and `b`; a state
that differs from `a` only in secondary or constant fields is equal to `a` (the library
tests being reflexive); and `a != b` is the negation of `a == b`. -/
theorem eq_primary_only (a b : State K Mat)
    (hv : ∀ v, M.vectorEq v v = true) (hq : ∀ q, M.quaternionEq q q = true) :
    (State.eq M a b = true ↔
        M.vectorEq a.position b.position = true
          ∧ M.quaternionEq a.orientation b.orientation = true
          ∧ M.vectorEq a.momentum b.momentum = true
          ∧ M.vectorEq a.angularMomentum b.angularMomentum = true)
      ∧ (∀ x y : State K Mat,
          State.eq M
              { x with position := a.position, orientation := a.orientation,
                       momentum := a.momentum, angularMomentum := a.angularMomentum }
              { y with position := b.position, orientation := b.orientation,
                       momentum := b.momentum, angularMomentum := b.angularMomentum }
            = State.eq M a b)
      ∧ (∀ x : State K Mat,
          State.eq M a
              { x with position := a.position, orientation := a.orientation,
                       momentum := a.momentum, angularMomentum := a.angularMomentum }
            = true)
      ∧ State.ne M a b = !State.eq M a b := by
  refine ⟨?_, fun _ _ => rfl, fun _ => ?_, rfl⟩
  · simp [State.eq, and_assoc]
  · simp [State.eq, hv, hq]

/-- Claim C7, over the rational instance, at the current state of the sample cube and the
state carried by the sample move. -/
theorem eq_primary_only_witness :
    (∀ v, Mathematics.rational.vectorEq v v = true)
      ∧ (∀ q, Mathematics.rational.quaternionEq q q = true)
      ∧ State.ne Mathematics.rational Server.sample.cube.current Move.sample.state
          = !State.eq Mathematics.rational Server.sample.cube.current Move.sample.state :=
  ⟨fun _ => by simp [Mathematics.rational], fun _ => by simp [Mathematics.rational],
    (eq_primary_only Mathematics.rational Server.sample.cube.current Move.sample.state
      (fun _ => by simp [Mathematics.rational])
      (fun _ => by simp [Mathematics.rational])).2.2.2⟩

/-! ### Repeated smoothing -/

@[simp] theorem recalculate_position (s : State K Mat) :
    (s.recalculate M).position = s.position := rfl

@[simp] theorem recalculate_momentum (s : State K Mat) :
    (s.recalculate M).momentum = s.momentum := rfl

@[simp] theorem recalculate_angularMomentum (s : State K Mat) :
    (s.recalculate M).angularMomentum = s.angularMomentum := rfl

theorem ratSqrt_one : ratSqrt 1 = 1 := by
  simp [ratSqrt]

/-- Normalising a quaternion of unit squared length leaves it as it is, when `sqrt 1 = 1`. -/
theorem normalize_of_unit (q : Quaternion K) (hq : q.lengthSquared = 1)
    (h1 : M.sqrt 1 = 1) : q.normalize M = q := by
  simp [Quaternion.normalize, Quaternion.length, hq, h1]

/-- Claim C10 (a point on the plane contributes nothing).  For every state, point and plane
with `plane.constant - point·normal = 0` (penetration zero), `collisionForPoint` returns
the force and the torque accumulator unchanged, whatever the velocity and angular velocity
of the body. -/
theorem collisionForPoint_on_plane (state : State K Mat) (force torque point : Vector K)
    (plane : Plane K) (h : plane.constant - point.dot plane.normal = 0) :
    collisionForPoint state force torque point plane = (force, torque) := by
  simp [collisionForPoint, h]

/-- Claim C10, at the sample state with the origin as the point on the ground plane. -/
theorem collisionForPoint_on_plane_witness :
    Plane.ground.constant - (⟨0, 0, 0⟩ : Vector ℚ).dot Plane.ground.normal = 0
      ∧ collisionForPoint Move.sample.state ⟨1, 2, 3⟩ ⟨4, 5, 6⟩ ⟨0, 0, 0⟩ Plane.ground
          = (⟨1, 2, 3⟩, ⟨4, 5, 6⟩) :=
  ⟨by simp [Plane.ground, Vector.dot],
    collisionForPoint_on_plane Move.sample.state ⟨1, 2, 3⟩ ⟨4, 5, 6⟩ ⟨0, 0, 0⟩ Plane.ground
      (by simp [Plane.ground, Vector.dot])⟩

/-- The result of `collisionForPoint` for a penetrating point, with the four force terms
and their torques in the order in which the source accumulates them. -/
theorem collisionForPoint_penetrating (state : State K Mat) (force torque point : Vector K)
    (plane : Plane K) (hp : penetration point plane > 0) :
    collisionForPoint state force torque point plane
      = if relativeSpeed state point plane > 0 then
          (force + plane.normal * (relativeSpeed state point plane * 10)
              + -(pointVelocity state point
                  + plane.normal * relativeSpeed state point plane) * (3 : K)
              + plane.normal * (penetration point plane * 100)
              + plane.normal
                  * (relativeSpeed state point plane * penetration point plane * 5),
            torque
              + (point - state.position).cross
                  (plane.normal * (relativeSpeed state point plane * 10))
              + (point - state.position).cross
                  (-(pointVelocity state point
                    + plane.normal * relativeSpeed state point plane) * (3 : K))
              + (point - state.position).cross
                  (plane.normal * (penetration point plane * 100))
              + (point - state.position).cross (plane.normal
                  * (relativeSpeed state point plane * penetration point plane * 5)))
        else
          (force
              + -(pointVelocity state point
                  + plane.normal * relativeSpeed state point plane) * (3 : K)
              + plane.normal * (penetration point plane * 100)
              + plane.normal
                  * (relativeSpeed state point plane * penetration point plane * 5),
            torque
              + (point - state.position).cross
                  (-(pointVelocity state point
                    + plane.normal * relativeSpeed state point plane) * (3 : K))
              + (point - state.position).cross
                  (plane.normal * (penetration point plane * 100))
              + (point - state.position).cross (plane.normal
                  * (relativeSpeed state point plane * penetration point plane * 5))) := by
  unfold penetration at hp
  unfold collisionForPoint
  simp only [hp, if_true]
  unfold relativeSpeed pointVelocity penetration
  split <;> rfl

/-- A body at rest has zero velocity at every point. -/
theorem pointVelocity_at_rest (state : State K Mat) (point : Vector K)
    (hv : state.velocity = ⟨0, 0, 0⟩) (hw : state.angularVelocity = ⟨0, 0, 0⟩) :
    pointVelocity state point = ⟨0, 0, 0⟩ := by
  ext <;> simp [pointVelocity, Vector.cross, hv, hw]

/-- A body at rest has zero closing speed at every point. -/
theorem relativeSpeed_at_rest (state : State K Mat) (point : Vector K) (plane : Plane K)
    (hv : state.velocity = ⟨0, 0, 0⟩) (hw : state.angularVelocity = ⟨0, 0, 0⟩) :
    relativeSpeed state point plane = 0 := by
  simp [relativeSpeed, pointVelocity_at_rest state point hv hw, Vector.dot]

/-- Claim C11 (penalty term only at rest).  For every state with zero velocity and zero
angular velocity and every point penetrating a plane by depth `p > 0`, `collisionForPoint`
adds to the force accumulator exactly `normal * (p * 100)`, the penalty force (braking,
friction and damping are all zero), and to the torque accumulator the torque of that
force. -/
theorem collisionForPoint_penalty_only (state : State K Mat) (force torque point : Vector K)
    (plane : Plane K) (hv : state.velocity = ⟨0, 0, 0⟩)
    (hw : state.angularVelocity = ⟨0, 0, 0⟩) (hp : penetration point plane > 0) :
    (collisionForPoint state force torque point plane).1
        = force + plane.normal * (penetration point plane * 100)
      ∧ (collisionForPoint state force torque point plane).2
        = torque + (point - state.position).cross
            (plane.normal * (penetration point plane * 100)) := by
  rw [collisionForPoint_penetrating state force torque point plane hp,
    relativeSpeed_at_rest state point plane hv hw, pointVelocity_at_rest state point hv hw]
  simp only [lt_irrefl, if_false]
  constructor <;> ext <;> simp [Vector.cross]

/-- Claim C13 (every collision force contributes the matching torque).  For every state,
point and plane, the torque added by one call of `collisionForPoint` is
`(point - state.position) × (force added by that call)`. -/
theorem collisionForPoint_torque (state : State K Mat) (force torque point : Vector K)
    (plane : Plane K) :
    (collisionForPoint state force torque point plane).2 - torque
      = (point - state.position).cross
          ((collisionForPoint state force torque point plane).1 - force) := by
  by_cases hp : penetration point plane > 0
  · rw [collisionForPoint_penetrating state force torque point plane hp]
    split <;> ext <;> simp [Vector.cross] <;> ring
  · have h : collisionForPoint state force torque point plane = (force, torque) := by
      unfold penetration at hp
      simp [collisionForPoint, hp]
    rw [h]
    ext <;> simp [Vector.cross]

/-- The force added for a penetrating point, less the three terms directed along the
normal (braking, penalty, damping), is `-(velocity + normal * relativeSpeed) * 3`. -/
theorem collisionForPoint_force_sub (state : State K Mat) (force torque point : Vector K)
    (plane : Plane K) (hp : penetration point plane > 0) :
    (collisionForPoint state force torque point plane).1 - force
        - plane.normal * ((if relativeSpeed state point plane > 0
              then relativeSpeed state point plane * 10 else 0)
            + penetration point plane * 100
            + relativeSpeed state point plane * penetration point plane * 5)
      = -(pointVelocity state point + plane.normal * relativeSpeed state point plane)
          * (3 : K) := by
  rw [collisionForPoint_penetrating state force torque point plane hp]
  split <;> ext <;> simp <;> ring

theorem sampleFalling_velocity : State.sampleFalling.velocity = ⟨0, -1, 0⟩ := by
  ext <;> simp [State.sampleFalling, State.recalculate, Server.sample, Cube.init]

theorem sampleFalling_angularVelocity : State.sampleFalling.angularVelocity = ⟨0, 0, 0⟩ := by
  ext <;> simp [State.sampleFalling, State.recalculate, Server.sample, Cube.init]

theorem sampleFalling_position : State.sampleFalling.position = ⟨0, 0, 0⟩ := rfl

theorem sampleFalling_pointVelocity (point : Vector ℚ) :
    pointVelocity State.sampleFalling point = ⟨0, -1, 0⟩ := by
  ext <;> simp [pointVelocity, Vector.cross, sampleFalling_velocity,
    sampleFalling_angularVelocity]

theorem sampleFalling_relativeSpeed (point : Vector ℚ) :
    relativeSpeed State.sampleFalling point Plane.ground = 1 := by
  simp [relativeSpeed, sampleFalling_pointVelocity, Plane.ground, Vector.dot]

theorem sampleCorner_penetration : penetration Vector.sampleCorner Plane.ground = 1 / 2 := by
  simp [penetration, Vector.sampleCorner, Plane.ground, Vector.dot]

/-- Claim C12 fails as stated: for the falling sample state and the penetrating corner
`(1/2, -1/2, 1/2)` on the ground plane, the force added by `collisionForPoint`, less the
braking, penalty and damping terms along the normal, is not `-(pointVelocity - normal * s) * 3`
(the left side is zero, the right side is `(0, 6, 0)`). -/
theorem collisionForPoint_friction_counterexample :
    (collisionForPoint State.sampleFalling ⟨0, 0, 0⟩ ⟨0, 0, 0⟩ Vector.sampleCorner
          Plane.ground).1 - ⟨0, 0, 0⟩
        - Plane.ground.normal
          * ((if relativeSpeed State.sampleFalling Vector.sampleCorner Plane.ground > 0
                then relativeSpeed State.sampleFalling Vector.sampleCorner Plane.ground * 10
                else 0)
              + penetration Vector.sampleCorner Plane.ground * 100
              + relativeSpeed State.sampleFalling Vector.sampleCorner Plane.ground
                * penetration Vector.sampleCorner Plane.ground * 5)
      ≠ -(pointVelocity State.sampleFalling Vector.sampleCorner
            - Plane.ground.normal
              * relativeSpeed State.sampleFalling Vector.sampleCorner Plane.ground)
          * (3 : ℚ) := by
  rw [collisionForPoint_force_sub _ _ _ _ _ (by rw [sampleCorner_penetration]; norm_num),
    sampleFalling_pointVelocity, sampleFalling_relativeSpeed]
  intro h
  have hy := congrArg Vector.y h
  simp [Plane.ground] at hy

/-- Claim C11, at the sample state (at rest) with the point `(0, -1, 0)` one unit under the
ground plane. -/
theorem collisionForPoint_penalty_only_witness :
    Move.sample.state.velocity = ⟨0, 0, 0⟩ ∧ Move.sample.state.angularVelocity = ⟨0, 0, 0⟩
      ∧ penetration (⟨0, -1, 0⟩ : Vector ℚ) Plane.ground > 0
      ∧ (collisionForPoint Move.sample.state ⟨0, 0, 0⟩ ⟨0, 0, 0⟩ ⟨0, -1, 0⟩ Plane.ground).1
          = ⟨0, 0, 0⟩ + Plane.ground.normal
              * (penetration (⟨0, -1, 0⟩ : Vector ℚ) Plane.ground * 100) := by
  have hv : Move.sample.state.velocity = ⟨0, 0, 0⟩ := by
    ext <;> simp [Move.sample, Server.sample, Cube.init, State.recalculate]
  have hw : Move.sample.state.angularVelocity = ⟨0, 0, 0⟩ := by
    ext <;> simp [Move.sample, Server.sample, Cube.init, State.recalculate]
  have hp : penetration (⟨0, -1, 0⟩ : Vector ℚ) Plane.ground > 0 := by
    simp [penetration, Plane.ground, Vector.dot]
  exact ⟨hv, hw, hp,
    (collisionForPoint_penalty_only Move.sample.state ⟨0, 0, 0⟩ ⟨0, 0, 0⟩ ⟨0, -1, 0⟩
      Plane.ground hv hw hp).1⟩

/-- Claim C12, amended (friction force).  For every penetrating point, the force added by
`collisionForPoint`, less the braking, penalty and damping terms directed along the normal,
is the friction force `-tangentialVelocity * 3` with
`tangentialVelocity = pointVelocity + normal * s`, where
`pointVelocity = angularVelocity × (point - position) + velocity` and
`s = -normal · pointVelocity` is the closing speed; that is,
`tangentialVelocity = pointVelocity - normal * (normal · pointVelocity)`. -/
theorem collisionForPoint_friction (state : State K Mat) (force torque point : Vector K)
    (plane : Plane K) (hp : penetration point plane > 0) :
    (collisionForPoint state force torque point plane).1 - force
          - plane.normal * ((if relativeSpeed state point plane > 0
                then relativeSpeed state point plane * 10 else 0)
              + penetration point plane * 100
              + relativeSpeed state point plane * penetration point plane * 5)
        = -(pointVelocity state point + plane.normal * relativeSpeed state point plane)
            * (3 : K)
      ∧ pointVelocity state point + plane.normal * relativeSpeed state point plane
        = pointVelocity state point
            - plane.normal * plane.normal.dot (pointVelocity state point)
      ∧ pointVelocity state point
        = state.angularVelocity.cross (point - state.position) + state.velocity
      ∧ relativeSpeed state point plane = -plane.normal.dot (pointVelocity state point) := by
  refine ⟨collisionForPoint_force_sub state force torque point plane hp, ?_, rfl, rfl⟩
  ext <;> simp [relativeSpeed]  <;> ring

/-- Claim C12 amended, at the falling sample state and the penetrating corner. -/
theorem collisionForPoint_friction_witness :
    penetration Vector.sampleCorner Plane.ground > 0
      ∧ (collisionForPoint State.sampleFalling ⟨0, 0, 0⟩ ⟨0, 0, 0⟩ Vector.sampleCorner
            Plane.ground).1 - ⟨0, 0, 0⟩
          - Plane.ground.normal
            * ((if relativeSpeed State.sampleFalling Vector.sampleCorner Plane.ground > 0
                  then relativeSpeed State.sampleFalling Vector.sampleCorner Plane.ground * 10
                  else 0)
                + penetration Vector.sampleCorner Plane.ground * 100
                + relativeSpeed State.sampleFalling Vector.sampleCorner Plane.ground
                  * penetration Vector.sampleCorner Plane.ground * 5)
        = -(pointVelocity State.sampleFalling Vector.sampleCorner
              + Plane.ground.normal
                * relativeSpeed State.sampleFalling Vector.sampleCorner Plane.ground)
            * (3 : ℚ) :=
  ⟨by rw [sampleCorner_penetration]; norm_num,
    (collisionForPoint_friction State.sampleFalling ⟨0, 0, 0⟩ ⟨0, 0, 0⟩ Vector.sampleCorner
      Plane.ground (by rw [sampleCorner_penetration]; norm_num)).1⟩

/-- Claim C19 (penalty braking resists closing motion only).  For every penetrating point
with closing speed `s`: when `s > 0`, `collisionForPoint` adds the braking force
`normal * (s * 10)` and its torque, besides friction, penalty `normal * (penetration * 100)`
and damping `normal * (s * penetration * 5)`; when `s ≤ 0` the braking term is not added and
the force added is only friction + penalty + damping (with their torques). -/
theorem collisionForPoint_braking (state : State K Mat) (force torque point : Vector K)
    (plane : Plane K) (hp : penetration point plane > 0) :
    (relativeSpeed state point plane > 0 →
        collisionForPoint state force torque point plane
          = (force + collisionForce state point plane + frictionForce state point plane
                + penaltyForce point plane + dampingForce state point plane,
              torque + (point - state.position).cross (collisionForce state point plane)
                + (point - state.position).cross (frictionForce state point plane)
                + (point - state.position).cross (penaltyForce point plane)
                + (point - state.position).cross (dampingForce state point plane)))
      ∧ (relativeSpeed state point plane ≤ 0 →
        collisionForPoint state force torque point plane
          = (force + frictionForce state point plane
                + penaltyForce point plane + dampingForce state point plane,
              torque + (point - state.position).cross (frictionForce state point plane)
                + (point - state.position).cross (penaltyForce point plane)
                + (point - state.position).cross (dampingForce state point plane)))
      ∧ collisionForce state point plane
          = plane.normal * (relativeSpeed state point plane * 10)
      ∧ penaltyForce point plane = plane.normal * (penetration point plane * 100)
      ∧ dampingForce state point plane
          = plane.normal * (relativeSpeed state point plane * penetration point plane * 5) := by
  refine ⟨fun h => ?_, fun h => ?_, rfl, rfl, rfl⟩
  · rw [collisionForPoint_penetrating state force torque point plane hp, if_pos h]
    rfl
  · rw [collisionForPoint_penetrating state force torque point plane hp,
      if_neg (not_lt.mpr h)]
    rfl

/-- Claim C19, at the falling sample state (closing speed 1) and the penetrating corner:
the braking force is among the terms added. -/
theorem collisionForPoint_braking_witness :
    penetration Vector.sampleCorner Plane.ground > 0
      ∧ relativeSpeed State.sampleFalling Vector.sampleCorner Plane.ground > 0
      ∧ (collisionForPoint State.sampleFalling ⟨0, 0, 0⟩ ⟨0, 0, 0⟩ Vector.sampleCorner
          Plane.ground).1
        = ⟨0, 0, 0⟩ + collisionForce State.sampleFalling Vector.sampleCorner Plane.ground
            + frictionForce State.sampleFalling Vector.sampleCorner Plane.ground
            + penaltyForce Vector.sampleCorner Plane.ground
            + dampingForce State.sampleFalling Vector.sampleCorner Plane.ground :=
  ⟨by rw [sampleCorner_penetration]; norm_num,
    by rw [sampleFalling_relativeSpeed]; norm_num,
    congrArg Prod.fst
      ((collisionForPoint_braking State.sampleFalling ⟨0, 0, 0⟩ ⟨0, 0, 0⟩ Vector.sampleCorner
        Plane.ground (by rw [sampleCorner_penetration]; norm_num)).1
        (by rw [sampleFalling_relativeSpeed]; norm_num))⟩

/-! ### Control forces -/

end Cube

/-! ## Server: important moves that the server has already simulated past -/

namespace Server

variable (M : Mathematics K Mat) (dt : K)

/-- The stepping loop does nothing when the target time has been reached. -/
theorem advance_of_le (s : Server K Mat) (t : Nat) (h : t ≤ s.time) :
    advance M dt s t = s := by
  rw [advance, if_neg (not_lt.mpr h)]

/-- The input that is active after a list of moves has been applied: the input of the
last move, the input of before when the list is empty. -/
theorem foldl_applyMove_of_le (moves : List (Move K Mat)) (s : Server K Mat)
    (hm : ∀ m ∈ moves, m.time ≤ s.time) :
    moves.foldl (applyMove M dt) s
      = { s with input := ((moves.getLast?).map Move.input).getD s.input } := by
  induction moves generalizing s with
  | nil => rfl
  | cons m ms ih =>
    have h1 : applyMove M dt s m = { s with input := m.input } := by
      unfold applyMove
      rw [advance_of_le M dt s m.time (hm m (List.mem_cons_self _ _))]
    rw [List.foldl_cons, h1,
      ih { s with input := m.input } (fun x hx => hm x (List.mem_cons_of_mem _ hx))]
    cases ms with
    | nil => rfl
    | cons a as =>
      have hl : (a :: as).getLast? = some ((a :: as).getLast (List.cons_ne_nil a as)) :=
        List.getLast?_eq_getLast _ _
      rw [List.getLast?_cons_cons, hl]
      rfl

/-- With the flag on and every move at or before the scene time, the loop over the moves
only replaces the active input, by that of the last move. -/
theorem update_of_stale_moves (s : Server K Mat) (h : s.useImportantMoves = true)
    (t : Nat) (input : Cube.Input) (moves : List (Move K Mat))
    (hm : ∀ m ∈ moves, m.time ≤ s.time) :
    update M dt s t input moves
      = update M dt { s with input := ((moves.getLast?).map Move.input).getD s.input }
          t input [] := by
  rw [update_nil]
  unfold update
  rw [if_pos h, foldl_applyMove_of_le M dt moves s hm]

/-- Claim C20, amended (redundant resends).  With `useImportantMoves` enabled, if every
move in `importantMoves` has a timestamp at or before the scene time at the start of the
call, then `update(t, input, importantMoves)` gives the server that `update(t, input, [])`
gives after the active input has been replaced by the input of the last move of the list;
the final scene time and active input are those of `update(t, input, [])`; and the whole
result, cube state included, is that of `update(t, input, [])` when `t` is not after the
scene time (no step is taken) or the last move carries the input that was active (also
when the list is empty). -/
theorem update_redundant_moves (s : Server K Mat) (h : s.useImportantMoves = true)
    (t : Nat) (input : Cube.Input) (moves : List (Move K Mat))
    (hm : ∀ m ∈ moves, m.time ≤ s.time) :
    update M dt s t input moves
        = update M dt { s with input := ((moves.getLast?).map Move.input).getD s.input }
            t input []
      ∧ (update M dt s t input moves).time = (update M dt s t input []).time
      ∧ (update M dt s t input moves).input = (update M dt s t input []).input
      ∧ (t ≤ s.time ∨ ((moves.getLast?).map Move.input).getD s.input = s.input →
          update M dt s t input moves = update M dt s t input []) := by
  have h0 := update_of_stale_moves M dt s h t input moves hm
  refine ⟨h0, ?_, ?_, ?_⟩
  · rw [h0, update_nil, update_nil]
    simp only [advance_time]
  · rw [h0, update_nil, update_nil]
  · rintro (ht | hi)
    · have e1 := advance_of_le M dt s t ht
      have e2 := advance_of_le M dt
        { s with input := ((moves.getLast?).map Move.input).getD s.input } t ht
      rw [h0, update_nil, update_nil, e1, e2]
    · rw [h0, hi]

/-- Claim C20 amended, at the sample server with the stale move and target time 1: the
scene time is that of the call without moves. -/
theorem update_redundant_moves_witness :
    Server.samplePlaneless.useImportantMoves = true
      ∧ (∀ m ∈ [Move.sampleStale], m.time ≤ Server.samplePlaneless.time)
      ∧ (update Mathematics.rational (1 / 100) Server.samplePlaneless 1 Cube.Input.none
          [Move.sampleStale]).time
        = (update Mathematics.rational (1 / 100) Server.samplePlaneless 1 Cube.Input.none
          []).time :=
  ⟨rfl, fun m hm => by rw [List.mem_singleton] at hm; rw [hm]; exact Nat.le_refl 0,
    (update_redundant_moves Mathematics.rational (1 / 100) Server.samplePlaneless rfl 1
      Cube.Input.none [Move.sampleStale]
      (fun m hm => by rw [List.mem_singleton] at hm; rw [hm]; exact Nat.le_refl 0)).2.1⟩

/-- One update of the planeless sample server from time 0 to time 1 is one `integrate`
step of the sample cube with the active input. -/
theorem samplePlaneless_step (input : Cube.Input) :
    (update Mathematics.rational (1 / 100) { Server.samplePlaneless with input := input } 1
        Cube.Input.none []).cube.current.momentum.x
      = (Cube.integrate Mathematics.rational input [] Server.sample.cube.current
          (1 / 100)).momentum.x := by
  rw [update_nil]
  show (advance Mathematics.rational (1 / 100)
    { Server.samplePlaneless with input := input } 1).cube.current.momentum.x = _
  rw [advance_cube]
  rfl

/-- One step from the sample state with the `left` input and one with no input end with
different momenta. -/
theorem sample_step_left_ne_none :
    (Cube.integrate Mathematics.rational Move.sampleStale.input []
        Server.sample.cube.current (1 / 100)).momentum.x
      ≠ (Cube.integrate Mathematics.rational Cube.Input.none []
        Server.sample.cube.current (1 / 100)).momentum.x := by
  simp [Cube.integrate, Cube.integratePrimary, Cube.evaluate, Cube.evaluateAt,
    Cube.forces, Cube.gravity, Cube.damping, Cube.collision, Cube.control,
    Cube.Input.none, Move.sampleStale, Server.sample, Cube.init,
    Cube.State.recalculate, Vector.zero]
  norm_num

/-- Claim C20 fails as stated: the sample server (planeless, scene time 0, no input
active, flag on) is sent `update(1, none, [move])` with a move of time 0 carrying the
`left` input; the step from time 0 to time 1 is then taken with the `left` input, and the
cube differs from the one `update(1, none, [])` leaves. -/
theorem update_redundant_moves_counterexample :
    Server.samplePlaneless.useImportantMoves = true
      ∧ (∀ m ∈ [Move.sampleStale], m.time ≤ Server.samplePlaneless.time)
      ∧ (update Mathematics.rational (1 / 100) Server.samplePlaneless 1 Cube.Input.none
            [Move.sampleStale]).cube
          ≠ (update Mathematics.rational (1 / 100) Server.samplePlaneless 1 Cube.Input.none
            []).cube := by
  have hm : ∀ m ∈ [Move.sampleStale], m.time ≤ Server.samplePlaneless.time := by
    intro m hm
    rw [List.mem_singleton] at hm
    rw [hm]
    exact Nat.le_refl 0
  refine ⟨rfl, hm, fun h => ?_⟩
  rw [update_of_stale_moves Mathematics.rational (1 / 100) Server.samplePlaneless
    rfl 1 Cube.Input.none [Move.sampleStale] hm] at h
  have h2 := congrArg (fun c => c.current.momentum.x) h
  exact sample_step_left_ne_none
    ((samplePlaneless_step Move.sampleStale.input).symm.trans
      (h2.trans (samplePlaneless_step Cube.Input.none)))

end Server

/-! ## Options: latency settings -/

namespace Options

/-- Claim C18 (latency options are applied as half round-trip time).  For the four latency
settings (0, 50 ms, 200 ms, 2000 ms) `Options::update` sets `connection.latency` to 0,
0.025, 0.1 and 1.0 seconds, half the nominal value, whatever it was before; so
`connection.latency * 2 * 1000` is 0, 50, 200 and 2000, and so is the integer
`milliseconds` obtained from it. -/
theorem latency_half_round_trip [FloorRing K] (c : K) :
    updateLatency NoLatency c = 0
      ∧ updateLatency FiftyMillisecondsLatency c = 25 / 1000
      ∧ updateLatency TwoHundredMillisecondsLatency c = 1 / 10
      ∧ updateLatency TwoSecondsLatency c = 1
      ∧ updateLatency NoLatency c * 2 * 1000 = 0
      ∧ updateLatency FiftyMillisecondsLatency c * 2 * 1000 = 50
      ∧ updateLatency TwoHundredMillisecondsLatency c * 2 * 1000 = 200
      ∧ updateLatency TwoSecondsLatency c * 2 * 1000 = 2000
      ∧ milliseconds (updateLatency NoLatency c) = 0
      ∧ milliseconds (updateLatency FiftyMillisecondsLatency c) = 50
      ∧ milliseconds (updateLatency TwoHundredMillisecondsLatency c) = 200
      ∧ milliseconds (updateLatency TwoSecondsLatency c) = 2000 := by
  have h0 : updateLatency NoLatency c = 0 := by simp [updateLatency]
  have h1 : updateLatency FiftyMillisecondsLatency c = 25 / 1000 := by
    simp [updateLatency, NoLatency, FiftyMillisecondsLatency]
    norm_num
  have h2 : updateLatency TwoHundredMillisecondsLatency c = 1 / 10 := by
    simp [updateLatency, NoLatency, FiftyMillisecondsLatency, TwoHundredMillisecondsLatency]
    norm_num
  have h3 : updateLatency TwoSecondsLatency c = 1 := by
    simp [updateLatency, NoLatency, FiftyMillisecondsLatency, TwoHundredMillisecondsLatency,
      TwoSecondsLatency]
  have f : ∀ n : ℕ, toInt (n : K) = (n : Int) := by
    intro n
    simp [toInt]
  refine ⟨h0, h1, h2, h3, ?_, ?_, ?_, ?_, ?_, ?_, ?_, ?_⟩
  · rw [h0]; norm_num
  · rw [h1]; norm_num
  · rw [h2]; norm_num
  · rw [h3]; norm_num
  · rw [milliseconds, h0]
    have := f 0
    norm_num at this ⊢
    simpa using this
  · rw [milliseconds, h1]
    have e : (25 / 1000 : K) * 2 * 1000 = ((50 : ℕ) : K) := by norm_num
    rw [e, f]
    rfl
  · rw [milliseconds, h2]
    have e : (1 / 10 : K) * 2 * 1000 = ((200 : ℕ) : K) := by norm_num
    rw [e, f]
    rfl
  · rw [milliseconds, h3]
    have e : (1 : K) * 2 * 1000 = ((2000 : ℕ) : K) := by norm_num
    rw [e, f]
    rfl

end Options
/-! ## Physics3D: the fixed-timestep loop -/

namespace Physics3D

variable {C : Type} (update : C → Nat → Nat → C) (dt : Nat)

/-- The spacing is positive, and either one unit or at most `m / 2^23`. -/
theorem quantumFrom_spec (fuel q m : Nat) (hq : 0 < q) :
    0 < quantumFrom fuel q m
      ∧ (quantumFrom fuel q m = q ∨ quantumFrom fuel q m * 2 ^ 23 ≤ m) := by
  induction fuel generalizing q with
  | zero => exact ⟨hq, Or.inl rfl⟩
  | succ fuel ih =>
    rw [quantumFrom]
    split
    · rename_i h
      have h2 := ih (2 * q) (by omega)
      refine ⟨h2.1, Or.inr ?_⟩
      rcases h2.2 with h3 | h3
      · rw [h3]
        have h4 : 2 ^ 24 * q ≤ m := (Nat.le_div_iff_mul_le hq).mp h
        have e : 2 * q * 2 ^ 23 = 2 ^ 24 * q := by ring
        rw [e]
        exact h4
      · exact h3
    · exact ⟨hq, Or.inl rfl⟩

/-- The spacing around `m` is positive, and either one unit or at most `m / 2^23`. -/
theorem quantum_spec (m : Nat) :
    0 < quantum m ∧ (quantum m = 1 ∨ quantum m * 2 ^ 23 ≤ m) :=
  quantumFrom_spec 256 1 m Nat.one_pos

/-- Rounding raises a value by at most half the spacing. -/
theorem round32_le (m : Nat) : 2 * round32 m ≤ 2 * m + quantum m := by
  have hq := (quantum_spec m).1
  have hdm := Nat.div_add_mod m (quantum m)
  have hr := Nat.mod_lt m hq
  have hmul : (m / quantum m + 1) * quantum m = quantum m * (m / quantum m) + quantum m := by
    ring
  have hmul0 : m / quantum m * quantum m = quantum m * (m / quantum m) := by ring
  unfold round32
  simp only []
  generalize quantum m * (m / quantum m) = p at hdm hmul hmul0
  split_ifs <;> simp only [hmul, hmul0] at * <;> omega

/-- While `dt ≤ a ≤ 2^24 * dt`, the rounded difference `a - dt` is below `a`. -/
theorem round32_sub_lt (a : Nat) (hdt : 0 < dt) (h1 : dt ≤ a) (h2 : a ≤ 2 ^ 24 * dt) :
    round32 (a - dt) < a := by
  have hle := round32_le (a - dt)
  rcases (quantum_spec (a - dt)).2 with hq | hq
  · rw [hq] at hle
    omega
  · have e : (2 : Nat) ^ 24 = 2 * 2 ^ 23 := by norm_num
    rw [e] at h2
    have h3 : quantum (a - dt) * 2 ^ 23 < 2 * dt * 2 ^ 23 := by
      have : 2 * 2 ^ 23 * dt = 2 * dt * 2 ^ 23 := by ring
      omega
    have h4 : quantum (a - dt) < 2 * dt := Nat.lt_of_mul_lt_mul_right h3
    omega

/-- The loop body run `n` times leaves what `n` whole steps are to leave. -/
theorem iterate_body (n : Nat) (s : Loop C) :
    (body update dt)^[n] s = afterSteps update dt n s := by
  induction n with
  | zero => rfl
  | succ n ih =>
    rw [Function.iterate_succ_apply', ih]
    simp only [body, afterSteps, List.range_succ, List.foldl_append, List.foldl_cons,
      List.foldl_nil, Function.iterate_succ_apply']

/-- The loop stopped: with the loop condition false any bound returns the state. -/
theorem innerLoop_of_lt (fuel : Nat) (s : Loop C) (h : s.accumulator < dt) :
    innerLoop update dt fuel s = some s := by
  cases fuel <;> rw [innerLoop, if_neg (not_le.mpr h)]

/-- Termination of the loop: while the accumulator is at most `2^24 * dt`, every
subtraction lowers it, so the loop stops after some number `n` of runs of its body, and any
bound of at least `n` iterations returns the state after these `n` runs. -/
theorem innerLoop_terminates (hdt : 0 < dt) (a : Nat) :
    ∀ s : Loop C, s.accumulator = a → a ≤ 2 ^ 24 * dt →
      ∃ n, (∀ fuel, n ≤ fuel → innerLoop update dt fuel s = some ((body update dt)^[n] s))
        ∧ ((body update dt)^[n] s).accumulator < dt
        ∧ ∀ i, i < n → dt ≤ ((body update dt)^[i] s).accumulator := by
  induction a using Nat.strong_induction_on with
  | _ a ih =>
    intro s hs ha
    by_cases hge : dt ≤ s.accumulator
    · have hlt : (body update dt s).accumulator < a := by
        rw [← hs]
        exact round32_sub_lt dt s.accumulator hdt hge (hs ▸ ha)
      obtain ⟨n, h1, h2, h3⟩ := ih _ hlt (body update dt s) rfl (by omega)
      refine ⟨n + 1, ?_, ?_, ?_⟩
      · intro fuel hf
        obtain ⟨k, rfl⟩ : ∃ k, fuel = k + 1 := ⟨fuel - 1, by omega⟩
        rw [innerLoop, if_pos hge, h1 k (by omega), Function.iterate_succ_apply]
      · rw [Function.iterate_succ_apply]
        exact h2
      · intro i hi
        cases i with
        | zero => exact hge
        | succ j =>
          rw [Function.iterate_succ_apply]
          exact h3 j (by omega)
    · have hlt : s.accumulator < dt := not_le.mp hge
      exact ⟨0, fun fuel _ => innerLoop_of_lt update dt fuel s hlt, hlt,
        fun i hi => absurd hi (Nat.not_lt_zero i)⟩

/-- When no subtraction rounds, `i` subtractions leave `a - i * dt`. -/
theorem iterate_sub_exact (a : Nat)
    (hex : ∀ k, (k + 1) * dt ≤ a → round32 (a - (k + 1) * dt) = a - (k + 1) * dt)
    (i : Nat) (hi : i * dt ≤ a) :
    (fun x => round32 (x - dt))^[i] a = a - i * dt := by
  induction i with
  | zero => simp
  | succ i ih =>
    have e : (i + 1) * dt = i * dt + dt := Nat.succ_mul i dt
    rw [Function.iterate_succ_apply', ih (by omega), Nat.sub_sub, ← e]
    exact hex i hi

/-- When no addition rounds, `i` additions leave `t + i * dt`. -/
theorem iterate_add_exact (t n : Nat)
    (hex : ∀ k, k < n → round32 (t + (k + 1) * dt) = t + (k + 1) * dt)
    (i : Nat) (hi : i ≤ n) :
    (fun x => round32 (x + dt))^[i] t = t + i * dt := by
  induction i with
  | zero => simp
  | succ i ih =>
    have e : (i + 1) * dt = i * dt + dt := Nat.succ_mul i dt
    rw [Function.iterate_succ_apply', ih (by omega), Nat.add_assoc, ← e]
    exact hex i (by omega)

/-- Claim C17, amended (the fixed-timestep loop never takes a partial step).  For a `float`
`dt > 0` and a finite accumulator `acc` with `acc ≤ 2^24 * dt` (its value after the frame
delta has been added; it is never negative), the inner loop terminates: there is a number
`n` of iterations such that every bound of at least `n` iterations returns the state after
`n` whole steps, that is `n` calls `cube.update(t_i, dt)` with the full step `dt`, `n`
rounded subtractions of `dt` from the accumulator and `n` rounded additions of `dt` to `t`;
the loop condition held before each of the `n` iterations, and `accumulator < dt` at the
end.  When no subtraction rounds, `n = ⌊acc / dt⌋` and `acc = n * dt + remaining
accumulator`; when no addition rounds, `t` has advanced by `n * dt`. -/
theorem innerLoop_whole_steps (hdt : 0 < dt) (s : Loop C)
    (hfin : s.accumulator < infinity) (hacc : s.accumulator ≤ 2 ^ 24 * dt) :
    ∃ n, (∀ fuel, n ≤ fuel → innerLoop update dt fuel s = some (afterSteps update dt n s))
      ∧ (afterSteps update dt n s).accumulator < dt
      ∧ (∀ i, i < n → dt ≤ (afterSteps update dt i s).accumulator)
      ∧ ((∀ k, (k + 1) * dt ≤ s.accumulator →
            round32 (s.accumulator - (k + 1) * dt) = s.accumulator - (k + 1) * dt) →
          n = s.accumulator / dt
            ∧ s.accumulator = n * dt + (afterSteps update dt n s).accumulator)
      ∧ ((∀ k, k < n → round32 (s.t + (k + 1) * dt) = s.t + (k + 1) * dt) →
          (afterSteps update dt n s).t = s.t + n * dt) := by
  have _ := hfin
  obtain ⟨n, h1, h2, h3⟩ := innerLoop_terminates update dt hdt s.accumulator s rfl hacc
  simp only [iterate_body] at h1 h2 h3
  refine ⟨n, h1, h2, h3, fun hex => ?_, fun hex => ?_⟩
  · have hsub := iterate_sub_exact dt s.accumulator hex
    have hdiv := Nat.div_add_mod s.accumulator dt
    have hmod := Nat.mod_lt s.accumulator hdt
    rw [Nat.mul_comm] at hdiv
    have hn : n = s.accumulator / dt := by
      rcases Nat.lt_trichotomy n (s.accumulator / dt) with hlt | heq | hgt
      · exfalso
        have hle : (n + 1) * dt ≤ s.accumulator / dt * dt := Nat.mul_le_mul_right dt hlt
        have e : (n + 1) * dt = n * dt + dt := Nat.succ_mul n dt
        have h4 := hsub n (by omega)
        have h5 : (afterSteps update dt n s).accumulator = s.accumulator - n * dt := h4
        omega
      · exact heq
      · exfalso
        have h4 := hsub (s.accumulator / dt) (by omega)
        have h5 := h3 (s.accumulator / dt) hgt
        have h6 : (afterSteps update dt (s.accumulator / dt) s).accumulator
            = s.accumulator - s.accumulator / dt * dt := h4
        omega
    refine ⟨hn, ?_⟩
    have h4 := hsub n (by rw [hn]; omega)
    have h5 : (afterSteps update dt n s).accumulator = s.accumulator - n * dt := h4
    rw [h5, hn]
    omega
  · exact iterate_add_exact dt s.t n hex n (le_refl n)

/-- Claim C17 amended, at `dt = 0.01f` and the accumulator of bits `0x3d4ccccc`. -/
theorem innerLoop_whole_steps_witness :
    0 < hundredth ∧ Loop.sample.accumulator < infinity
      ∧ Loop.sample.accumulator ≤ 2 ^ 24 * hundredth
      ∧ ∃ n, (∀ fuel, n ≤ fuel → innerLoop recordUpdate hundredth fuel Loop.sample
            = some (afterSteps recordUpdate hundredth n Loop.sample))
          ∧ (afterSteps recordUpdate hundredth n Loop.sample).accumulator < hundredth :=
  ⟨by decide, by decide, by decide,
    (innerLoop_whole_steps recordUpdate hundredth (by decide) Loop.sample (by decide)
      (by decide)).imp (fun _ h => ⟨h.1, h.2.1⟩)⟩

/-- Claim C17 fails as stated: at `dt = 0.01f` (bits `0x3c23d70a`) and the accumulator of
bits `0x3d4ccccc` the loop makes five calls of `cube.update` and leaves the accumulator at
0, where `⌊acc / dt⌋ = 4`, and `acc` is not `5 * dt + 0`: the fourth subtraction rounds to
`dt` itself. -/
theorem innerLoop_float_counterexample :
    innerLoop recordUpdate hundredth 10 Loop.sample
        = some (afterSteps recordUpdate hundredth 5 Loop.sample)
      ∧ (afterSteps recordUpdate hundredth 5 Loop.sample).cube.length = 5
      ∧ (afterSteps recordUpdate hundredth 5 Loop.sample).accumulator = 0
      ∧ Loop.sample.accumulator / hundredth = 4
      ∧ Loop.sample.accumulator ≠ 5 * hundredth + 0 := by
  decide

/-- Without the bound on the accumulator the loop need not stop: at `2^25` units with a
step of one unit the rounded difference is `2^25` again, and no bound on the number of
iterations is enough. -/
theorem innerLoop_stuck (fuel : Nat) (s : Loop C) (h : s.accumulator = 2 ^ 25) :
    innerLoop update 1 fuel s = none := by
  have hr : round32 (2 ^ 25 - 1) = 2 ^ 25 := by decide
  induction fuel generalizing s with
  | zero => rw [innerLoop, if_pos (by omega)]
  | succ k ih =>
    rw [innerLoop, if_pos (by omega)]
    apply ih
    simp only [body, h, hr]

end Physics3D

/-! ## Cube: forces on the cube at rest and in free fall -/

namespace Cube

variable (M : Mathematics K Mat)

/-- For a body at rest, a point adds the penalty force for the positive part of its
penetration, and the torque of that force. -/
theorem collisionForPoint_at_rest (state : State K Mat) (force torque point : Vector K)
    (plane : Plane K) (hv : state.velocity = ⟨0, 0, 0⟩)
    (hw : state.angularVelocity = ⟨0, 0, 0⟩) :
    collisionForPoint state force torque point plane
      = (force + plane.normal
            * ((if penetration point plane > 0 then penetration point plane else 0) * 100),
          torque + (point - state.position).cross (plane.normal
            * ((if penetration point plane > 0 then penetration point plane else 0)
              * 100))) := by
  by_cases hp : penetration point plane > 0
  · rw [if_pos hp, collisionForPoint_penetrating state force torque point plane hp,
      relativeSpeed_at_rest state point plane hv hw, pointVelocity_at_rest state point hv hw]
    simp only [lt_irrefl, if_false]
    refine Prod.ext ?_ ?_ <;> ext <;> simp [Vector.cross]
  · rw [if_neg hp]
    unfold penetration at hp
    simp only [collisionForPoint, hp, if_false]
    refine Prod.ext ?_ ?_ <;> ext <;> simp [Vector.cross]

/-- With no input flag set, `control` changes nothing. -/
theorem control_none (state : State K Mat) (force torque : Vector K) :
    control M Input.none state force torque = (force, torque) := by
  unfold control
  simp only [Input.none, Bool.false_eq_true, false_and, if_false]

/-- Force and torque on a cube of size 1 at rest with identity orientation over the ground
plane `y = 0`: gravity, and the penalty forces of the four lower corners (penetration
`1/2 - y`) and of the four upper corners (penetration `-1/2 - y`), whose torques cancel. -/
theorem forces_at_rest_on_ground (base : State K Mat) (hsize : base.size = 1)
    (hq : base.orientation = Quaternion.identity)
    (hm : base.momentum = ⟨0, 0, 0⟩) (ham : base.angularMomentum = ⟨0, 0, 0⟩)
    (h1 : M.sqrt 1 = 1)
    (hT : ∀ p v, M.transform (M.mul (M.translate p) (M.matrix Quaternion.identity)) v
      = p + v) :
    forces M Input.none [{ normal := ⟨0, 1, 0⟩, constant := 0 }] (base.recalculate M)
      = (⟨0, -(98 / 10)
            + 4 * ((if 1 / 2 - base.position.y > 0 then 1 / 2 - base.position.y else 0) * 100)
            + 4 * ((if -(1 / 2) - base.position.y > 0 then -(1 / 2) - base.position.y else 0)
                * 100), 0⟩,
          ⟨0, 0, 0⟩) := by
  have hv : (base.recalculate M).velocity = ⟨0, 0, 0⟩ := by
    ext <;> simp [State.recalculate, hm]
  have hw : (base.recalculate M).angularVelocity = ⟨0, 0, 0⟩ := by
    ext <;> simp [State.recalculate, ham]
  have hn : base.orientation.normalize M = Quaternion.identity := by
    rw [hq]
    exact normalize_of_unit M _ (by simp [Quaternion.identity, Quaternion.lengthSquared]) h1
  have hc : ∀ sx sy sz : K, corner M (base.recalculate M) sx sy sz
      = base.position + (⟨sx, sy, sz⟩ : Vector K) * (1 / 2 : K) := by
    intro sx sy sz
    simp only [corner, State.recalculate, hn, hT, hsize]
    ext <;> simp
  have hpen : ∀ sx sy sz : K,
      penetration (base.position + (⟨sx, sy, sz⟩ : Vector K) * (1 / 2 : K))
        ({ normal := ⟨0, 1, 0⟩, constant := 0 } : Plane K)
      = -(sy * (1 / 2)) - base.position.y := by
    intro sx sy sz
    simp [penetration, Vector.dot]
    ring
  simp only [forces, collision, List.foldl_cons, List.foldl_nil, hc,
    collisionForPoint_at_rest _ _ _ _ _ hv hw, hpen, control_none, gravity, damping]
  have e1 : -((-1 : K) * (1 / 2)) - base.position.y = 1 / 2 - base.position.y := by ring
  have e2 : -((1 : K) * (1 / 2)) - base.position.y = -(1 / 2) - base.position.y := by ring
  simp only [e1, e2, hv, hw, recalculate_position]
  generalize (if 1 / 2 - base.position.y > 0 then 1 / 2 - base.position.y else 0) = P
  generalize (if -(1 / 2) - base.position.y > 0 then -(1 / 2) - base.position.y else 0) = Q
  refine Prod.ext ?_ ?_ <;> ext <;>
    simp only [Vector.zero, Vector.cross, Vector.add_x, Vector.add_y, Vector.add_z,
      Vector.sub_x, Vector.sub_y, Vector.sub_z, Vector.mul_x, Vector.mul_y, Vector.mul_z,
      Vector.lmul_x, Vector.lmul_y, Vector.lmul_z] <;>
    ring

/-- Claim C16 (resting height on the ground plane).  For a cube of size 1 with identity
orientation, zero momentum and zero angular momentum (secondary values recalculated), the
single ground plane with normal `(0, 1, 0)` and constant 0, and no input, the force and the
torque returned by `forces` are both zero exactly when `position.y = 0.5 - 9.8/400`, which
is 0.4755: the half-extent 0.5 less the static penetration 0.0245.  The mass does not enter
(the velocities are zero).  The matrix product of the library is taken to act as the
translation by `position` for the identity orientation, and `sqrt 1 = 1`. -/
theorem resting_height (base : State K Mat) (hsize : base.size = 1)
    (hq : base.orientation = Quaternion.identity)
    (hm : base.momentum = ⟨0, 0, 0⟩) (ham : base.angularMomentum = ⟨0, 0, 0⟩)
    (h1 : M.sqrt 1 = 1)
    (hT : ∀ p v, M.transform (M.mul (M.translate p) (M.matrix Quaternion.identity)) v
      = p + v) :
    (forces M Input.none [{ normal := ⟨0, 1, 0⟩, constant := 0 }] (base.recalculate M)
        = (⟨0, 0, 0⟩, ⟨0, 0, 0⟩)
      ↔ base.position.y = 1 / 2 - (98 / 10) / 400)
      ∧ (1 / 2 - (98 / 10) / 400 : K) = 4755 / 10000
      ∧ (1 / 2 : K) - 4755 / 10000 = 245 / 10000 := by
  refine ⟨?_, by norm_num, by norm_num⟩
  rw [forces_at_rest_on_ground M base hsize hq hm ham h1 hT]
  constructor
  · intro h
    have hy := congrArg (fun p : Vector K × Vector K => p.1.y) h
    simp only [] at hy
    by_cases hb : 1 / 2 - base.position.y > 0
    · by_cases ht : -(1 / 2) - base.position.y > 0
      · rw [if_pos hb, if_pos ht] at hy
        linarith
      · rw [if_pos hb, if_neg ht] at hy
        linarith
    · have ht : ¬ (-(1 / 2) - base.position.y > 0) := fun ht => hb (by linarith)
      rw [if_neg hb, if_neg ht] at hy
      norm_num at hy
  · intro hy
    have hb : 1 / 2 - base.position.y > 0 := by rw [hy]; norm_num
    have ht : ¬ (-(1 / 2) - base.position.y > 0) := by rw [hy]; norm_num
    rw [if_pos hb, if_neg ht, hy]
    refine Prod.ext ?_ rfl
    ext <;> norm_num

/-- In the rational instance the matrix of the identity orientation composed with the
translation by `p` moves every point by `p`. -/
theorem rational_transform_identity (p v : Vector ℚ) :
    Mathematics.rational.transform
        (Mathematics.rational.mul (Mathematics.rational.translate p)
          (Mathematics.rational.matrix Quaternion.identity)) v = p + v := by
  ext <;>
    simp [Mathematics.rational, Affine.apply, Affine.comp, Affine.translation,
      Affine.rotation, Quaternion.identity, Vector.dot] <;>
    ring

/-- Claim C16, over the rational instance: at height 0.4755 the force and the torque on
the default cube are zero. -/
theorem resting_height_witness :
    State.sampleResting.size = 1
      ∧ State.sampleResting.orientation = Quaternion.identity
      ∧ State.sampleResting.momentum = ⟨0, 0, 0⟩
      ∧ State.sampleResting.angularMomentum = ⟨0, 0, 0⟩
      ∧ Mathematics.rational.sqrt 1 = 1
      ∧ forces Mathematics.rational Input.none [{ normal := ⟨0, 1, 0⟩, constant := 0 }]
          (State.sampleResting.recalculate Mathematics.rational)
        = (⟨0, 0, 0⟩, ⟨0, 0, 0⟩) :=
  ⟨rfl, rfl, rfl, rfl, ratSqrt_one,
    (resting_height Mathematics.rational State.sampleResting rfl rfl rfl rfl ratSqrt_one
      rational_transform_identity).1.mpr (by norm_num [State.sampleResting])⟩

/-! ### Fall with no planes and no input -/

/-- With no planes and no input the force is gravity and linear damping, and the torque
is angular damping. -/
theorem forces_free (state : State K Mat) :
    forces M Input.none [] state
      = (gravity Vector.zero - (1 / 1000 : K) * state.velocity,
          Vector.zero - (1 / 1000 : K) * state.angularVelocity) := by
  simp only [forces, damping, collision, List.foldl_nil, control_none]

/-- Vertical force of the first derivative evaluation, no planes and no input. -/
theorem evaluate_free_force_y (state : State K Mat) :
    (evaluate M Input.none [] state).force.y = -(98 / 10) - 1 / 1000 * state.velocity.y := by
  simp only [evaluate, forces_free, gravity, Vector.zero, Vector.sub_y, Vector.lmul_y]
  ring

/-- Vertical velocity of a derivative evaluation at an advanced state. -/
theorem evaluateAt_free_velocity_y (state : State K Mat) (dt : K) (d : Derivative K) :
    (evaluateAt M Input.none [] state dt d).velocity.y
      = (state.momentum.y + d.force.y * dt) * state.inverseMass := by
  simp [evaluateAt, State.recalculate]

/-- Vertical force of a derivative evaluation at an advanced state, no planes and no
input. -/
theorem evaluateAt_free_force_y (state : State K Mat) (dt : K) (d : Derivative K) :
    (evaluateAt M Input.none [] state dt d).force.y
      = -(98 / 10) - 1 / 1000 * ((state.momentum.y + d.force.y * dt) * state.inverseMass) := by
  simp only [evaluateAt, forces_free, gravity, Vector.zero, Vector.sub_y, Vector.lmul_y]
  simp [State.recalculate]

/-- One `integrate` step with no planes and no input, vertical components: the exact
4th-order Taylor map of fall under gravity and linear damping. -/
theorem integrate_free_y (s : State K Mat) (dt : K)
    (hc : s.velocity = s.momentum * s.inverseMass) :
    (integrate M Input.none [] s dt).momentum.y
        = s.momentum.y + (-(98 / 10) - s.inverseMass / 1000 * s.momentum.y)
            * (dt * (1 - (s.inverseMass / 1000 * dt) / 2
                + (s.inverseMass / 1000 * dt) ^ 2 / 6
                - (s.inverseMass / 1000 * dt) ^ 3 / 24))
      ∧ (integrate M Input.none [] s dt).position.y
        = s.position.y + s.inverseMass * (s.momentum.y * dt
            + (-(98 / 10) - s.inverseMass / 1000 * s.momentum.y)
              * (dt ^ 2 * (1 / 2 - (s.inverseMass / 1000 * dt) / 6
                + (s.inverseMass / 1000 * dt) ^ 2 / 24))) := by
  have hv : s.velocity.y = s.momentum.y * s.inverseMass := by rw [hc]; rfl
  constructor
  · simp only [integrate, recalculate_momentum, integratePrimary, Vector.add_y, Vector.lmul_y,
      evaluateAt_free_force_y, evaluate_free_force_y, hv]
    ring
  · simp only [integrate, recalculate_position, integratePrimary, Vector.add_y, Vector.lmul_y,
      evaluateAt_free_velocity_y, evaluateAt_free_force_y, evaluate_free_force_y, hv]
    simp only [evaluate, hv]
    ring

/-- After any number of steps the state is consistent (velocity is momentum times inverse
mass) and the inverse mass is the one of the start. -/
theorem integrateN_consistent (input : Input) (planes : List (Plane K)) (s : State K Mat)
    (dt : K) (hc : s.velocity = s.momentum * s.inverseMass) (n : Nat) :
    (integrateN M input planes dt n s).velocity
        = (integrateN M input planes dt n s).momentum
          * (integrateN M input planes dt n s).inverseMass
      ∧ (integrateN M input planes dt n s).inverseMass = s.inverseMass := by
  induction n with
  | zero => exact ⟨hc, rfl⟩
  | succ n ih => exact ⟨rfl, ih.2⟩

/-- The vertical net force (gravity and damping) shrinks by the factor
`1 - h + h^2/2 - h^3/6 + h^4/24`, `h = 0.001 * dt / mass`, with every step. -/
theorem integrateN_free_force (s : State K Mat) (dt : K)
    (hc : s.velocity = s.momentum * s.inverseMass) (n : Nat) :
    -(98 / 10) - s.inverseMass / 1000
          * (integrateN M Input.none [] dt n s).momentum.y
      = (1 - s.inverseMass / 1000 * dt + (s.inverseMass / 1000 * dt) ^ 2 / 2
            - (s.inverseMass / 1000 * dt) ^ 3 / 6 + (s.inverseMass / 1000 * dt) ^ 4 / 24) ^ n
          * (-(98 / 10) - s.inverseMass / 1000 * s.momentum.y) := by
  induction n with
  | zero => simp [integrateN]
  | succ n ih =>
    have hcn := integrateN_consistent M Input.none [] s dt hc n
    rw [integrateN, (integrate_free_y M _ dt hcn.1).1, hcn.2]
    linear_combination (1 - s.inverseMass / 1000 * dt + (s.inverseMass / 1000 * dt) ^ 2 / 2
      - (s.inverseMass / 1000 * dt) ^ 3 / 6 + (s.inverseMass / 1000 * dt) ^ 4 / 24) * ih

/-- Claim C15, amended (fall under gravity and damping).  With no collision planes and no
input flag set, `forces` returns gravity and the linear damping `-0.001 * velocity`, which
is always applied.  For every step size `dt`, every `n`, and every start state that is
consistent (`velocity = momentum * inverseMass`), with `h = 0.001 * inverseMass * dt` and
`F_n = -9.8 - 0.001 * inverseMass * momentum.y` the vertical net force after `n` steps:
`F_n = (1 - h + h^2/2 - h^3/6 + h^4/24)^n * F_0`, and step `n + 1` gives
`momentum.y + F_n * dt * (1 - h/2 + h^2/6 - h^3/24)` and
`position.y + inverseMass * (momentum.y * dt + F_n * dt^2 * (1/2 - h/6 + h^2/24))`: each
step is the exact 4th-order Taylor map of fall with linear damping. -/
theorem free_fall_damped (s : State K Mat) (dt : K)
    (hc : s.velocity = s.momentum * s.inverseMass) (n : Nat) :
    (-(98 / 10) - s.inverseMass / 1000 * (integrateN M Input.none [] dt n s).momentum.y
        = (1 - s.inverseMass / 1000 * dt + (s.inverseMass / 1000 * dt) ^ 2 / 2
              - (s.inverseMass / 1000 * dt) ^ 3 / 6
              + (s.inverseMass / 1000 * dt) ^ 4 / 24) ^ n
            * (-(98 / 10) - s.inverseMass / 1000 * s.momentum.y))
      ∧ (integrateN M Input.none [] dt (n + 1) s).momentum.y
        = (integrateN M Input.none [] dt n s).momentum.y
          + (-(98 / 10)
              - s.inverseMass / 1000 * (integrateN M Input.none [] dt n s).momentum.y)
            * (dt * (1 - (s.inverseMass / 1000 * dt) / 2
                + (s.inverseMass / 1000 * dt) ^ 2 / 6
                - (s.inverseMass / 1000 * dt) ^ 3 / 24))
      ∧ (integrateN M Input.none [] dt (n + 1) s).position.y
        = (integrateN M Input.none [] dt n s).position.y
          + s.inverseMass * ((integrateN M Input.none [] dt n s).momentum.y * dt
            + (-(98 / 10)
                - s.inverseMass / 1000 * (integrateN M Input.none [] dt n s).momentum.y)
              * (dt ^ 2 * (1 / 2 - (s.inverseMass / 1000 * dt) / 6
                + (s.inverseMass / 1000 * dt) ^ 2 / 24))) := by
  have hcn := integrateN_consistent M Input.none [] s dt hc n
  have hstep := integrate_free_y M (integrateN M Input.none [] dt n s) dt hcn.1
  rw [hcn.2] at hstep
  exact ⟨integrateN_free_force M s dt hc n, hstep.1, hstep.2⟩

/-- Claim C15 amended, over the rational instance: the sample state, steps of 1/100 s. -/
theorem free_fall_damped_witness :
    Move.sample.state.velocity = Move.sample.state.momentum * Move.sample.state.inverseMass
      ∧ (integrateN Mathematics.rational Input.none [] (1 / 100) (2 + 1)
          Move.sample.state).momentum.y
        = (integrateN Mathematics.rational Input.none [] (1 / 100) 2
            Move.sample.state).momentum.y
          + (-(98 / 10) - Move.sample.state.inverseMass / 1000
                * (integrateN Mathematics.rational Input.none [] (1 / 100) 2
                    Move.sample.state).momentum.y)
            * (1 / 100 * (1 - (Move.sample.state.inverseMass / 1000 * (1 / 100)) / 2
                + (Move.sample.state.inverseMass / 1000 * (1 / 100)) ^ 2 / 6
                - (Move.sample.state.inverseMass / 1000 * (1 / 100)) ^ 3 / 24)) :=
  ⟨rfl, (free_fall_damped Mathematics.rational Move.sample.state (1 / 100) rfl 2).2.1⟩

/-- Momentum of the sample state after `n` steps with no planes and no input. -/
theorem sample_free_momentum (dt : ℚ) (n : Nat) :
    (integrateN Mathematics.rational Input.none [] dt n Move.sample.state).momentum.y
      = 9800 * ((1 - 1 / 1000 * dt + (1 / 1000 * dt) ^ 2 / 2 - (1 / 1000 * dt) ^ 3 / 6
          + (1 / 1000 * dt) ^ 4 / 24) ^ n - 1) := by
  have hw : Move.sample.state.inverseMass = 1 := by
    norm_num [Move.sample, Server.sample, Cube.init, State.recalculate]
  have hm : Move.sample.state.momentum.y = 0 := rfl
  have h := integrateN_free_force Mathematics.rational Move.sample.state dt rfl n
  rw [hw, hm] at h
  linear_combination (-1000) * h

/-- Lower bound on the deviation of the momentum of the sample state from undamped free
fall, for steps of at most one second. -/
theorem sample_free_deviation (dt : ℚ) (h0 : 0 < dt) (h1 : dt ≤ 1) (n : Nat) (hn : 1 ≤ n) :
    98 / 30000 * dt ^ 2
      ≤ (integrateN Mathematics.rational Input.none [] dt n Move.sample.state).momentum.y
        - (Move.sample.state.momentum.y - 98 / 10 * (n * dt)) := by
  have hm : Move.sample.state.momentum.y = 0 := rfl
  rw [sample_free_momentum, hm]
  have ha : (-2 : ℚ) ≤ -(1 / 1000 * dt) + (1 / 1000 * dt) ^ 2 / 2
      - (1 / 1000 * dt) ^ 3 / 6 + (1 / 1000 * dt) ^ 4 / 24 := by
    have e : -(1 / 1000 * dt) + (1 / 1000 * dt) ^ 2 / 2
        - (1 / 1000 * dt) ^ 3 / 6 + (1 / 1000 * dt) ^ 4 / 24
        = -(1 / 1000 * dt) + (1 / 1000 * dt) ^ 2 * ((3 - 1 / 1000 * dt) / 6)
          + (1 / 1000 * dt) ^ 4 / 24 := by ring
    rw [e]
    have h3 : (0 : ℚ) ≤ 3 - 1 / 1000 * dt := by linarith
    have h4 : (0 : ℚ) ≤ (1 / 1000 * dt) ^ 2 * ((3 - 1 / 1000 * dt) / 6) := by positivity
    have h5 : (0 : ℚ) ≤ (1 / 1000 * dt) ^ 4 / 24 := by positivity
    linarith
  have hb := one_add_mul_le_pow ha n
  have hr : (1 : ℚ) + (- (1 / 1000 * dt) + (1 / 1000 * dt) ^ 2 / 2
      - (1 / 1000 * dt) ^ 3 / 6 + (1 / 1000 * dt) ^ 4 / 24)
      = 1 - 1 / 1000 * dt + (1 / 1000 * dt) ^ 2 / 2 - (1 / 1000 * dt) ^ 3 / 6
          + (1 / 1000 * dt) ^ 4 / 24 := by ring
  rw [hr] at hb
  have hn1 : (1 : ℚ) ≤ n := by exact_mod_cast hn
  have hq : (0 : ℚ) ≤ (1 / 1000 * dt) ^ 2 / 2 - (1 / 1000 * dt) ^ 3 / 6
      + (1 / 1000 * dt) ^ 4 / 24 - (1 / 1000 * dt) ^ 2 / 3 := by
    have e : (1 / 1000 * dt) ^ 2 / 2 - (1 / 1000 * dt) ^ 3 / 6
        + (1 / 1000 * dt) ^ 4 / 24 - (1 / 1000 * dt) ^ 2 / 3
        = (1 / 1000 * dt) ^ 2 * ((1 - 1 / 1000 * dt) / 6 + (1 / 1000 * dt) ^ 2 / 24) := by ring
    rw [e]
    have : (0 : ℚ) ≤ 1 - 1 / 1000 * dt := by linarith
    positivity
  nlinarith [mul_le_mul_of_nonneg_right hn1 hq, mul_nonneg (by linarith : (0 : ℚ) ≤ n) hq,
    sq_nonneg dt]

/-- Claim C15 fails as stated: for the sample state (the default cube at rest, mass 1)
with no planes and no input, the momentum after `N` steps is not within `O(dt^4)` of the
free-fall value `m0.y - 9.8 * (N * dt)`.  There is no constant `C` for which arbitrarily
small steps `dt` admit even one `N ≥ 1` with
`|momentum.y - (m0.y - 9.8 * N * dt)| ≤ C * dt^4`: for `dt ≤ 1` the deviation is at least
`(0.0098 / 3) * dt^2`, the work of the damping force. -/
theorem free_fall_counterexample :
    ¬ ∃ C : ℚ, ∀ dt0 : ℚ, 0 < dt0 → ∃ dt : ℚ, 0 < dt ∧ dt ≤ dt0 ∧ ∃ N : ℕ, 1 ≤ N ∧
      |(integrateN Mathematics.rational Input.none [] dt N Move.sample.state).momentum.y
          - (Move.sample.state.momentum.y - 98 / 10 * (N * dt))| ≤ C * dt ^ 4 := by
  rintro ⟨C, hC⟩
  have hc1 : (1 : ℚ) ≤ max C 1 := le_max_right _ _
  have hcC : C ≤ max C 1 := le_max_left _ _
  have hc0 : (0 : ℚ) < max C 1 := lt_of_lt_of_le one_pos hc1
  obtain ⟨dt, h0, hle, N, hN, herr⟩ := hC (1 / (100 * max C 1)) (by positivity)
  have hmul : dt * (100 * max C 1) ≤ 1 := (le_div_iff₀ (by positivity)).mp hle
  have hdt : dt ≤ 1 / 100 := by nlinarith
  have hdev := sample_free_deviation dt h0 (by linarith) N hN
  have habs := le_trans (le_abs_self _) herr
  have h2 : max C 1 * dt ≤ 1 / 100 := by linarith
  have h3 : C * dt ^ 2 ≤ 1 / 10000 := by
    have : C * dt ^ 2 ≤ max C 1 * dt ^ 2 :=
      mul_le_mul_of_nonneg_right hcC (by positivity)
    nlinarith
  have h4 : C * dt ^ 4 ≤ 1 / 10000 * dt ^ 2 := by
    have e : C * dt ^ 4 = C * dt ^ 2 * dt ^ 2 := by ring
    rw [e]
    exact mul_le_mul_of_nonneg_right h3 (by positivity)
  have h5 : 0 < dt ^ 2 := by positivity
  linarith

end Cube

/-! ## Server: scene time after an update with important moves -/

namespace Server

variable (M : Mathematics K Mat) (dt : K)

/-- Scene time after one important move has been applied. -/
theorem applyMove_time (s : Server K Mat) (m : Move K Mat) :
    (applyMove M dt s m).time = max s.time m.time :=
  advance_time M dt s m.time

/-- The loop over the important moves never lowers the scene time and brings it at least
to the time of every move. -/
theorem foldl_applyMove_time_ge (moves : List (Move K Mat)) (s : Server K Mat) :
    s.time ≤ (moves.foldl (applyMove M dt) s).time
      ∧ ∀ m ∈ moves, m.time ≤ (moves.foldl (applyMove M dt) s).time := by
  induction moves generalizing s with
  | nil => exact ⟨le_refl _, fun m hm => absurd hm (List.not_mem_nil m)⟩
  | cons a as ih =>
    rw [List.foldl_cons]
    have h1 := ih (applyMove M dt s a)
    rw [applyMove_time] at h1
    refine ⟨le_trans (le_max_left _ _) h1.1, fun m hm => ?_⟩
    rcases List.mem_cons.mp hm with rfl | hm
    · exact le_trans (le_max_right _ _) h1.1
    · exact h1.2 m hm

/-- Scene time after the loop over important moves in ascending order of time: the later
of the time before and the time of the last move. -/
theorem foldl_applyMove_time (moves : List (Move K Mat)) (s : Server K Mat)
    (hs : moves.Pairwise (fun a b => a.time ≤ b.time)) :
    (moves.foldl (applyMove M dt) s).time
      = max s.time (((moves.getLast?).map Move.time).getD 0) := by
  induction moves generalizing s with
  | nil => simp
  | cons a as ih =>
    rw [List.foldl_cons, ih _ (List.pairwise_cons.mp hs).2, applyMove_time]
    cases as with
    | nil => simp
    | cons b bs =>
      have hl : (b :: bs).getLast? = some ((b :: bs).getLast (List.cons_ne_nil b bs)) :=
        List.getLast?_eq_getLast _ _
      have hle : a.time ≤ ((b :: bs).getLast (List.cons_ne_nil b bs)).time :=
        (List.pairwise_cons.mp hs).1 _ (List.getLast_mem _)
      rw [List.getLast?_cons_cons, hl]
      simp only [Option.map_some', Option.getD_some]
      omega

/-- Claim C21 (scene time after an update with important moves).  With `useImportantMoves`
enabled and the important moves in ascending order of time, the scene time after
`update(t, input, importantMoves)` is `max(time0, t, time of the last important move)` (the
last term absent for an empty list); it is never less than `t`; and it is later than `t`
whenever some move has a time later than `t`.  The loops terminate, each scene step raising
the time by one: `update` is a total function, and the result is the one stated. -/
theorem update_time_with_moves (s : Server K Mat) (h : s.useImportantMoves = true)
    (t : Nat) (input : Cube.Input) (moves : List (Move K Mat))
    (hs : moves.Pairwise (fun a b => a.time ≤ b.time)) :
    (update M dt s t input moves).time
        = max (max s.time t) (((moves.getLast?).map Move.time).getD 0)
      ∧ t ≤ (update M dt s t input moves).time
      ∧ ((∃ m ∈ moves, t < m.time) → t < (update M dt s t input moves).time) := by
  have h0 : (update M dt s t input moves).time
      = max (moves.foldl (applyMove M dt) s).time t := by
    unfold update
    rw [if_pos h]
    exact advance_time M dt _ t
  have hge := foldl_applyMove_time_ge M dt moves s
  refine ⟨?_, ?_, ?_⟩
  · rw [h0, foldl_applyMove_time M dt moves s hs]
    omega
  · rw [h0]
    exact le_max_right _ _
  · rintro ⟨m, hm, hlt⟩
    rw [h0]
    exact lt_of_lt_of_le hlt (le_trans (hge.2 m hm) (le_max_left _ _))

/-- Claim C21, at the sample server with two moves of times 2 and 9 and target time 5. -/
theorem update_time_with_moves_witness :
    Server.sample.useImportantMoves = true
      ∧ Move.sampleAscending.Pairwise (fun a b => a.time ≤ b.time)
      ∧ (update Mathematics.rational (1 / 100) Server.sample 5 Cube.Input.none
          Move.sampleAscending).time
        = max (max Server.sample.time 5)
            (((Move.sampleAscending.getLast?).map Move.time).getD 0) :=
  ⟨rfl, by simp [Move.sampleAscending],
    (update_time_with_moves Mathematics.rational (1 / 100) Server.sample rfl 5
      Cube.Input.none Move.sampleAscending (by simp [Move.sampleAscending])).1⟩

end Server

/-! ## Cube: tangential friction and the geometric decay of the smoothing error -/

namespace Cube

variable (M : Mathematics K Mat)

/-- Claim C22 (the friction force is purely tangential).  For every state, every
penetrating point and every plane whose normal has unit length, the friction force that
`collisionForPoint` adds (the force added less the braking, penalty and damping terms along
the normal, which is the local `frictionForce`) has zero dot product with the normal. -/
theorem friction_tangential (state : State K Mat) (force torque point : Vector K)
    (plane : Plane K) (hp : penetration point plane > 0)
    (hn : plane.normal.lengthSquared = 1) :
    ((collisionForPoint state force torque point plane).1 - force
        - plane.normal * ((if relativeSpeed state point plane > 0
              then relativeSpeed state point plane * 10 else 0)
            + penetration point plane * 100
            + relativeSpeed state point plane * penetration point plane * 5)).dot
        plane.normal = 0
      ∧ (frictionForce state point plane).dot plane.normal = 0 := by
  have hf : (frictionForce state point plane).dot plane.normal = 0 := by
    simp only [Vector.lengthSquared] at hn
    simp only [frictionForce, relativeSpeed, Vector.dot, Vector.neg_x, Vector.neg_y,
      Vector.neg_z, Vector.mul_x, Vector.mul_y, Vector.mul_z, Vector.add_x, Vector.add_y,
      Vector.add_z]
    linear_combination (3 * (plane.normal.x * (pointVelocity state point).x
      + plane.normal.y * (pointVelocity state point).y
      + plane.normal.z * (pointVelocity state point).z)) * hn
  rw [collisionForPoint_force_sub state force torque point plane hp]
  exact ⟨hf, hf⟩

/-- Claim C22, at the falling sample state, the penetrating corner and the ground plane. -/
theorem friction_tangential_witness :
    penetration Vector.sampleCorner Plane.ground > 0
      ∧ Plane.ground.normal.lengthSquared = 1
      ∧ ((collisionForPoint State.sampleFalling ⟨0, 0, 0⟩ ⟨0, 0, 0⟩ Vector.sampleCorner
            Plane.ground).1 - (⟨0, 0, 0⟩ : Vector ℚ)
          - Plane.ground.normal
            * ((if relativeSpeed State.sampleFalling Vector.sampleCorner Plane.ground > 0
                  then relativeSpeed State.sampleFalling Vector.sampleCorner Plane.ground * 10
                  else 0)
                + penetration Vector.sampleCorner Plane.ground * 100
                + relativeSpeed State.sampleFalling Vector.sampleCorner Plane.ground
                  * penetration Vector.sampleCorner Plane.ground * 5)).dot
          Plane.ground.normal = 0 :=
  ⟨by rw [sampleCorner_penetration]; norm_num,
    by simp [Plane.ground, Vector.lengthSquared],
    (friction_tangential State.sampleFalling ⟨0, 0, 0⟩ ⟨0, 0, 0⟩ Vector.sampleCorner
      Plane.ground (by rw [sampleCorner_penetration]; norm_num)
      (by simp [Plane.ground, Vector.lengthSquared])).1⟩

end Cube

/-! ## Integration: the RK4 step as a Taylor map -/

namespace Integration

/-- Components of one RK4 step, polynomials of degree 4 in `dt`. -/
theorem integrate_components (state : State K) (t dt : K) :
    (integrate state t dt).x
        = (1 - 5 * dt ^ 2 + 5 / 3 * dt ^ 3 + 15 / 4 * dt ^ 4) * state.x
          + (dt - 1 / 2 * dt ^ 2 - 3 / 2 * dt ^ 3 + 19 / 24 * dt ^ 4) * state.v
      ∧ (integrate state t dt).v
        = (-10 * dt + 5 * dt ^ 2 + 15 * dt ^ 3 - 95 / 12 * dt ^ 4) * state.x
          + (1 - dt - 9 / 2 * dt ^ 2 + 19 / 6 * dt ^ 3 + 71 / 24 * dt ^ 4) * state.v := by
  constructor <;> simp only [integrate, evaluate, evaluateAt, acceleration] <;> ring

/-- Components of the Taylor map applied to a state. -/
theorem taylorStep_components (h : K) (state : State K) :
    (taylorStep h state).x
        = (1 - 5 * h ^ 2 + 5 / 3 * h ^ 3 + 15 / 4 * h ^ 4) * state.x
          + (h - 1 / 2 * h ^ 2 - 3 / 2 * h ^ 3 + 19 / 24 * h ^ 4) * state.v
      ∧ (taylorStep h state).v
        = (-10 * h + 5 * h ^ 2 + 15 * h ^ 3 - 95 / 12 * h ^ 4) * state.x
          + (1 - h - 9 / 2 * h ^ 2 + 19 / 6 * h ^ 3 + 71 / 24 * h ^ 4) * state.v := by
  constructor <;>
    simp [taylorStep, taylorMap, systemMatrix, Matrix.mulVec, Matrix.dotProduct,
      Fin.sum_univ_two, pow_succ, Matrix.mul_apply, Matrix.one_apply] <;>
    ring

/-- Claim C24 (the RK4 step is the 4th-order Taylor map).  For every state `(x, v)`, time
`t` and step `dt`, `integrate` returns
`(I + hA + (hA)^2/2 + (hA)^3/6 + (hA)^4/24)` applied to `(x, v)`, with `h = dt` and
`A = [[0, 1], [-10, -1]]`; the result does not depend on `t`; and the rest state `(0, 0)`
is a fixed point. -/
theorem integrate_eq_taylorStep (state : State K) (t dt : K) :
    integrate state t dt = taylorStep dt state
      ∧ (∀ t2 : K, integrate state t2 dt = integrate state t dt)
      ∧ integrate ({ x := 0, v := 0 } : State K) t dt = { x := 0, v := 0 } := by
  have h : ∀ (s : State K) (t1 : K), integrate s t1 dt = taylorStep dt s := by
    intro s t1
    ext
    · rw [(integrate_components s t1 dt).1, (taylorStep_components dt s).1]
    · rw [(integrate_components s t1 dt).2, (taylorStep_components dt s).2]
  refine ⟨h state t, fun t2 => by rw [h, h], ?_⟩
  ext
  · rw [(integrate_components _ t dt).1]; simp
  · rw [(integrate_components _ t dt).2]; simp

end Integration
end GamePhysics
